import Mathlib

/-!
Verification of the clayer PBFT consensus engine
(crates/consensus/clayer/src/consensus.rs and the wire types in
crates/net/eth-wire/src/types/clayer/message.rs).

The embedding models byte strings, hashes, peer ids and addresses as
natural numbers; the cryptographic primitives (keccak256, secp256k1
recovery, RLP decoding) are abstracted into an `Env` record of oracles,
and each `PbftSignedVote` carries the results of decoding its byte
fields, mirroring exactly which checks the source performs on them.
External collaborators (execution engine, block store, seal store,
validator-set query) are `Env` fields; their invocations are recorded
as explicit `Effect`s.  The handler functions are translated
line-by-line from the source; the helper modules that are not part of
the source tree (state.rs, logs.rs, validators.rs) are modelled from
the specification and marked `Modelled from the spec`.
-/

namespace ClayerPbft

/-- PBFT message types with the wire codes of `PbftMessageType` (message.rs). -/
inductive MsgType
  | unset
  | prePrepare
  | prepareMsg
  | commit
  | newView
  | viewChange
  | sealRequest
  | sealType
  | blockNew
  | announceBlock
  | newValidator
deriving DecidableEq, Repr

/-- The `u8` wire code of a message type (`PbftMessageType as u8`). -/
def MsgType.toU8 : MsgType → Nat
  | .unset => 0
  | .prePrepare => 1
  | .prepareMsg => 2
  | .commit => 3
  | .newView => 4
  | .viewChange => 5
  | .sealRequest => 6
  | .sealType => 7
  | .blockNew => 8
  | .announceBlock => 9
  | .newValidator => 10

/-- `impl From<u8> for PbftMessageType` (message.rs). -/
def MsgType.ofU8 : Nat → MsgType
  | 1 => .prePrepare
  | 2 => .prepareMsg
  | 3 => .commit
  | 4 => .newView
  | 5 => .viewChange
  | 6 => .sealRequest
  | 7 => .sealType
  | 8 => .blockNew
  | 9 => .announceBlock
  | 10 => .newValidator
  | _ => .unset

/-- `PbftMessageInfo` (message.rs): type code, view, sequence number, signer id. -/
structure PbftMessageInfo where
  ptype : Nat
  view : Nat
  seqNum : Nat
  signerId : Nat
deriving DecidableEq, Repr

/-- `PbftMessage` (message.rs). -/
structure PbftMessage where
  info : PbftMessageInfo
  blockId : Nat
deriving DecidableEq, Repr

/-- `ClayerConsensusMessageHeader` (message.rs). -/
structure MsgHeader where
  messageType : Nat
  contentHash : Nat
  signerId : Nat
deriving DecidableEq, Repr

/-- `PbftSignedVote` (message.rs), carrying the decode / recovery results of
its three byte fields: `msgDec` is the decoding of `message_bytes`,
`headerDec` the decoding of `header_bytes`, `sigRecover` the address
recovered from `header_signature` over `keccak256(header_bytes)` (none when
recovery fails), and `msgHash` is `keccak256(message_bytes)`. -/
structure PbftSignedVote where
  msgDec : Option PbftMessage
  headerDec : Option MsgHeader
  sigRecover : Option Nat
  msgHash : Nat
deriving DecidableEq, Repr

/-- `PbftSeal` (message.rs). -/
structure PbftSeal where
  info : PbftMessageInfo
  blockId : Nat
  commitVotes : List PbftSignedVote
deriving DecidableEq, Repr

/-- `PbftSeal::default()`: all fields zero, no votes. -/
def PbftSeal.default0 : PbftSeal :=
  { info := ⟨0, 0, 0, 0⟩, blockId := 0, commitVotes := [] }

/-- `PbftNewView` (message.rs). -/
structure PbftNewView where
  info : PbftMessageInfo
  viewChanges : List PbftSignedVote
deriving DecidableEq, Repr

/-- `PbftNewValidator` (message.rs). -/
structure PbftNewValidator where
  info : PbftMessageInfo
  peerid : Nat
deriving DecidableEq, Repr

/-- The `seal_bytes` field of a block: empty, undecodable, or a seal. -/
inductive SealBytes
  | empty
  | malformed
  | val (s : PbftSeal)
deriving DecidableEq, Repr

/-- `ClayerBlock` (message.rs): `blockNum` is `block.block_number`, `blockId`
is `block.block_hash`, `parentId` is `block.parent_hash`. -/
structure ClayerBlock where
  info : PbftMessageInfo
  blockNum : Nat
  blockId : Nat
  parentId : Nat
  timestamp : Nat
  sealBytes : SealBytes
  payloadId : Nat
deriving DecidableEq, Repr

/-- `PbftError` (pbft_error.rs), without the diagnostic strings. -/
inductive PbftError
  | invalidMessage
  | faultyPrimary
  | serviceError
  | serializationError
  | signingError
  | internalError
deriving DecidableEq, Repr

/-- PBFT phase (`PbftPhase`, state.rs). -/
inductive PbftPhase
  | prePreparing
  | preparing
  | committing
  | finishing (b : Bool)
deriving DecidableEq, Repr

/-- PBFT mode (`PbftMode`, state.rs). -/
inductive PbftMode
  | normal
  | viewChanging (v : Nat)
deriving DecidableEq, Repr

/-- One-shot timer (timing.rs `Timeout`): only the active flag and duration
are observable to the handlers modelled here. -/
structure Timeout where
  active : Bool
  duration : Nat
deriving DecidableEq, Repr

def Timeout.start (t : Timeout) : Timeout := { t with active := true }

def Timeout.stop (t : Timeout) : Timeout := { t with active := false }

/-- `PbftState` (state.rs): per-node mutable condition. -/
structure PbftState where
  id : Nat
  view : Nat
  seqNum : Nat
  phase : PbftPhase
  mode : PbftMode
  f : Nat
  validators : List Nat
  chainHead : Nat
  lastBlockTimestamp : Nat
  becomingValidator : Bool
  idleTimeout : Timeout
  commitTimeout : Timeout
  viewChangeTimeout : Timeout
  viewChangeDuration : Nat
  forcedViewChangePeriod : Nat
deriving DecidableEq, Repr

/-- Modelled from the spec: state.rs is absent from src; the spec says the
primary of view v is `members[v mod N]` under the deterministic ordering. -/
def PbftState.getPrimaryIdAtView (st : PbftState) (v : Nat) : Nat :=
  st.validators.getD (v % st.validators.length) 0

/-- Modelled from the spec: the current primary, `members[view mod N]`. -/
def PbftState.getPrimaryId (st : PbftState) : Nat :=
  st.getPrimaryIdAtView st.view

/-- Modelled from the spec: whether this node is the current primary. -/
def PbftState.isPrimary (st : PbftState) : Bool :=
  st.id == st.getPrimaryId

/-- Modelled from the spec: whether this node is the primary at view v. -/
def PbftState.isPrimaryAtView (st : PbftState) (v : Nat) : Bool :=
  st.id == st.getPrimaryIdAtView v

/-- Modelled from the spec: whether this node is a member of the network. -/
def PbftState.isValidator (st : PbftState) : Bool :=
  st.validators.contains st.id

/-- Modelled from the spec: a forced view change happens when
`state.seq % forced_view_change_period == 0`. -/
def PbftState.atForcedViewChange (st : PbftState) : Bool :=
  st.seqNum % st.forcedViewChangePeriod == 0

/-- Modelled from the spec: state.rs is absent from src; the spec says phase
transitions only in the order PrePreparing → Preparing → Committing →
Finishing → PrePreparing, and `switch_phase(next)` validates allowed
transitions, illegal ones returning an error. -/
def PbftState.switchPhase (st : PbftState) (next : PbftPhase) : Except PbftError PbftState :=
  let allowed :=
    match st.phase, next with
    | .prePreparing, .preparing => true
    | .preparing, .committing => true
    | .committing, .finishing _ => true
    | .finishing _, .prePreparing => true
    | _, _ => false
  if allowed then .ok { st with phase := next } else .error .internalError

/-- A logged consensus message (`ParsedMessage` with a `PbftMessage` payload,
message.rs): the parsed message, the self flag, and the decode / recovery
results of the header bytes and signature it was received with. -/
structure LogMsg where
  msg : PbftMessage
  fromSelf : Bool
  headerDec : Option MsgHeader
  sigRecover : Option Nat
deriving DecidableEq, Repr

/-- The identity key of a logged message: (type, view, seq, signer, block). -/
def LogMsg.key (m : LogMsg) : Nat × Nat × Nat × Nat × Nat :=
  (m.msg.info.ptype, m.msg.info.view, m.msg.info.seqNum, m.msg.info.signerId, m.msg.blockId)

/-- Modelled from the spec: the message log (logs.rs is absent from src) with
its received-message set and the validated / unvalidated block maps. -/
structure PbftLog where
  messages : List LogMsg
  blocks : List ClayerBlock
  unvalidatedBlocks : List ClayerBlock
deriving DecidableEq, Repr

/-- Whether the log holds a message with the same identity key. -/
def PbftLog.containsKey (log : PbftLog) (m : LogMsg) : Bool :=
  log.messages.any (fun x => x.key == m.key)

/-- Modelled from the spec: `add_message` with duplicate-message set
semantics keyed by (type, view, seq, signer, block_id). -/
def PbftLog.addMessage (log : PbftLog) (m : LogMsg) : PbftLog :=
  if log.containsKey m then log
  else { log with messages := log.messages ++ [m] }

/-- Modelled from the spec: `get_messages_of_type_seq(type, seq)`. -/
def PbftLog.getMessagesOfTypeSeq (log : PbftLog) (t : MsgType) (n : Nat) : List LogMsg :=
  log.messages.filter (fun m => MsgType.ofU8 m.msg.info.ptype == t && m.msg.info.seqNum == n)

/-- Modelled from the spec: `get_messages_of_type_view(type, view)`. -/
def PbftLog.getMessagesOfTypeView (log : PbftLog) (t : MsgType) (v : Nat) : List LogMsg :=
  log.messages.filter (fun m => MsgType.ofU8 m.msg.info.ptype == t && m.msg.info.view == v)

/-- Modelled from the spec: `get_messages_of_type_seq_view(type, seq, view)`. -/
def PbftLog.getMessagesOfTypeSeqView (log : PbftLog) (t : MsgType) (n v : Nat) : List LogMsg :=
  log.messages.filter
    (fun m => MsgType.ofU8 m.msg.info.ptype == t && m.msg.info.seqNum == n && m.msg.info.view == v)

/-- Modelled from the spec:
`get_messages_of_type_seq_view_block(type, seq, view, block_id)`. -/
def PbftLog.getMessagesOfTypeSeqViewBlock (log : PbftLog) (t : MsgType) (n v b : Nat) :
    List LogMsg :=
  log.messages.filter
    (fun m => MsgType.ofU8 m.msg.info.ptype == t && m.msg.info.seqNum == n
      && m.msg.info.view == v && m.msg.blockId == b)

/-- Modelled from the spec: `has_pre_prepare(seq, view, block_id)`. -/
def PbftLog.hasPrePrepare (log : PbftLog) (n v b : Nat) : Bool :=
  log.messages.any
    (fun m => MsgType.ofU8 m.msg.info.ptype == MsgType.prePrepare && m.msg.info.seqNum == n
      && m.msg.info.view == v && m.msg.blockId == b)

/-- Modelled from the spec: `get_block_with_id` over validated blocks. -/
def PbftLog.getBlockWithId (log : PbftLog) (bid : Nat) : Option ClayerBlock :=
  log.blocks.find? (fun b => b.blockId == bid)

/-- Modelled from the spec: `get_unvalidated_block_with_id`. -/
def PbftLog.getUnvalidatedBlockWithId (log : PbftLog) (bid : Nat) : Option ClayerBlock :=
  log.unvalidatedBlocks.find? (fun b => b.blockId == bid)

/-- Modelled from the spec: `get_blocks_with_num` over validated blocks. -/
def PbftLog.getBlocksWithNum (log : PbftLog) (n : Nat) : List ClayerBlock :=
  log.blocks.filter (fun b => b.blockNum == n)

/-- Modelled from the spec: `add_validated_block`, idempotent by id. -/
def PbftLog.addValidatedBlock (log : PbftLog) (b : ClayerBlock) : PbftLog :=
  if (log.getBlockWithId b.blockId).isSome then log
  else { log with blocks := log.blocks ++ [b] }

/-- Modelled from the spec: `add_unvalidated_block`, idempotent by id. -/
def PbftLog.addUnvalidatedBlock (log : PbftLog) (b : ClayerBlock) : PbftLog :=
  if (log.getUnvalidatedBlockWithId b.blockId).isSome then log
  else { log with unvalidatedBlocks := log.unvalidatedBlocks ++ [b] }

/-- Modelled from the spec: `block_validated(block_id)` promotes an
unvalidated block to validated and returns it. -/
def PbftLog.blockValidated (log : PbftLog) (bid : Nat) : Option (ClayerBlock × PbftLog) :=
  match log.getUnvalidatedBlockWithId bid with
  | none => none
  | some b =>
    some (b, { log with
      unvalidatedBlocks := log.unvalidatedBlocks.filter (fun x => x.blockId ≠ bid),
      blocks := log.blocks ++ [b] })

/-- Modelled from the spec: `block_invalidated(block_id)` drops the block
from the unvalidated map and reports whether it was present. -/
def PbftLog.blockInvalidated (log : PbftLog) (bid : Nat) : Bool × PbftLog :=
  ((log.getUnvalidatedBlockWithId bid).isSome,
   { log with unvalidatedBlocks := log.unvalidatedBlocks.filter (fun x => x.blockId ≠ bid) })

/-- The retention window constant K of the spec (a small constant, e.g. 3). -/
def gcWindow : Nat := 3

/-- Modelled from the spec: `garbage_collect(seq_num)` keeps messages with
`seq_num − K ≤ msg.seq ≤ seq_num + K` and blocks with
`block_num ≥ seq_num − K`. -/
def PbftLog.garbageCollect (log : PbftLog) (seqNum : Nat) : PbftLog :=
  { messages := log.messages.filter
      (fun m => seqNum - gcWindow ≤ m.msg.info.seqNum && m.msg.info.seqNum ≤ seqNum + gcWindow),
    blocks := log.blocks.filter (fun b => seqNum - gcWindow ≤ b.blockNum),
    unvalidatedBlocks := log.unvalidatedBlocks.filter (fun b => seqNum - gcWindow ≤ b.blockNum) }

/-- `ParsedMessage` (message.rs): the tagged message variants. -/
inductive ParsedMessage
  | message (m : LogMsg)
  | newView (nv : PbftNewView) (fromSelf : Bool)
  | sealMsg (s : PbftSeal) (fromSelf : Bool)
  | blockNew (b : ClayerBlock) (fromSelf : Bool)
  | newValidator (v : PbftNewValidator) (fromSelf : Bool)
deriving DecidableEq, Repr

/-- `ParsedMessage::info()`. -/
def ParsedMessage.info : ParsedMessage → PbftMessageInfo
  | .message m => m.msg.info
  | .newView nv _ => nv.info
  | .sealMsg s _ => s.info
  | .blockNew b _ => b.info
  | .newValidator v _ => v.info

def ParsedMessage.asLogMsg : ParsedMessage → Option LogMsg
  | .message m => some m
  | _ => none

def ParsedMessage.asNewView : ParsedMessage → Option PbftNewView
  | .newView nv _ => some nv
  | _ => none

def ParsedMessage.asSeal : ParsedMessage → Option PbftSeal
  | .sealMsg s _ => some s
  | _ => none

def ParsedMessage.asBlockNew : ParsedMessage → Option ClayerBlock
  | .blockNew b _ => some b
  | _ => none

def ParsedMessage.asNewValidator : ParsedMessage → Option PbftNewValidator
  | .newValidator v _ => some v
  | _ => none

/-- The injected collaborators and abstracted cryptographic primitives.
`membersAt n` is `assemble_peer_id(query_validators(ELECT_VOTING_ADDRESS, n))`
(retried until the query itself succeeds, as `retry_until_ok` does);
`latestHeader` is `client.latest_header()` as (number, timestamp);
`headerById` gives the timestamp of `client.header_by_id`;
`loadSeal` is `db.consensus_content` followed by seal decoding;
`keccakOfMsg m` is `keccak256` of the RLP encoding of `m`. -/
structure Env where
  commitBlock : Nat → Option Nat
  checkBlocksOk : Bool
  initializeBlockOk : Bool
  saveSealOk : Bool
  signingWorks : Bool
  latestHeader : Option (Nat × Nat)
  headerById : Nat → Option Nat
  membersAt : Nat → Except PbftError (List Nat)
  loadSeal : Nat → Except PbftError (Option PbftSeal)
  id2pk : Nat → Option Nat
  pkToAddr : Nat → Nat
  keccakOfMsg : PbftMessage → Nat

/-- What goes out on the wire on a `broadcast_consensus` call. -/
inductive NetMsg
  | pbft (m : PbftMessage)
  | newView (nv : PbftNewView)
  | sealMsg (s : PbftSeal)
  | blockNew (b : ClayerBlock)
  | newValidator (v : PbftNewValidator)
deriving DecidableEq, Repr

/-- Observable calls to the injected collaborators.  `broadcastNet` with an
empty peer list is a broadcast to all peers (the source convention). -/
inductive Effect
  | broadcastNet (peers : List Nat) (m : NetMsg)
  | commitBlock (blockId : Nat)
  | pushBlockCommit (blockId ts : Nat) (committing : Bool)
  | announceUpstream (blockId : Nat)
  | failBlock (blockId : Nat)
  | checkBlocks (payloadId : Nat)
  | initializeBlock (parent : Option Nat)
  | cancelBlock
  | saveSeal (s : PbftSeal)
deriving DecidableEq, Repr

/-- The engine state visible to the handlers: the node state, the message
log, the AnnounceBlock LRU cache (`ClayerConsensusEngine.announce_block`)
with its capacity, and the trace of effects performed so far. -/
structure World where
  st : PbftState
  log : PbftLog
  announce : List (Nat × Nat)
  announceCap : Nat
  effects : List Effect
deriving DecidableEq, Repr

/-- Append an effect to the trace. -/
def World.emit (w : World) (e : Effect) : World :=
  { w with effects := w.effects ++ [e] }

/-- Result of running a handler: `ok` / `err` mirror `Result`, `panic`
models a Rust panic (index out of bounds, `panic!`), and `fuelOut` is the
artifact of the bounded modelling of the broadcast-to-self recursion. -/
inductive Outcome
  | ok (w : World)
  | err (e : PbftError) (w : World)
  | panic
  | fuelOut (w : World)
deriving DecidableEq, Repr

/-- The world carried by a non-panicking outcome. -/
def Outcome.world : Outcome → Option World
  | .ok w => some w
  | .err _ w => some w
  | .fuelOut w => some w
  | .panic => none

/-- Sequencing mirroring the `?` operator. -/
def Outcome.andThen (o : Outcome) (k : World → Outcome) : Outcome :=
  match o with
  | .ok w => k w
  | o => o

/-- `ClayerConsensusEngine::new`: empty log, AnnounceBlock LRU of capacity
10 (`LruCache::new(10)`), no effects yet. -/
def engineNew (st : PbftState) : World :=
  { st := st, log := ⟨[], [], []⟩, announce := [], announceCap := 10, effects := [] }

/-- LRU `contains_key`. -/
def lruContains (c : List (Nat × Nat)) (k : Nat) : Bool :=
  c.any (fun p => p.1 == k)

/-- LRU `insert`: move-to-front insertion truncated to the capacity. -/
def lruInsert (cap : Nat) (c : List (Nat × Nat)) (k v : Nat) : List (Nat × Nat) :=
  ((k, v) :: c.filter (fun p => p.1 ≠ k)).take cap

/-!  Pure verification and construction of seals and votes
(consensus.rs, `verify_vote`, `verify_consensus_seal`, `verify_new_view`,
`build_seal`, `signed_votes_from_messages`, `ParsedMessage::from_signed_vote`). -/

/-- `verify_vote` (consensus.rs lines 1556-1636), translated check by check:
decode the message, decode the header, require equal signer ids, require
the expected type, obtain the public key of the signer (`id2pk`), recover
the signature's address and compare against `public_key_to_address(pk)`,
check the content hash, then apply the caller's criteria; return the
signer id on success. -/
def verifyVote (env : Env) (vote : PbftSignedVote) (expectedType : MsgType)
    (criteria : PbftMessage → Except PbftError Unit) : Except PbftError Nat :=
  match vote.msgDec with
  | none => .error .serializationError
  | some pbftMessage =>
    match vote.headerDec with
    | none => .error .serializationError
    | some header =>
      if header.signerId ≠ pbftMessage.info.signerId then .error .invalidMessage
      else if MsgType.ofU8 pbftMessage.info.ptype ≠ expectedType then .error .invalidMessage
      else
        match env.id2pk header.signerId with
        | none => .error .signingError
        | some pk =>
          match vote.sigRecover with
          | none => .error .signingError
          | some recovered =>
            if recovered ≠ env.pkToAddr pk then .error .signingError
            else if header.contentHash ≠ vote.msgHash then .error .signingError
            else
              match criteria pbftMessage with
              | .error e => .error e
              | .ok _ => .ok pbftMessage.info.signerId

/-- The validation criteria closure of `verify_consensus_seal`: the vote's
block id, view and seq_num must equal the seal's. -/
def sealVoteCriteria (sl : PbftSeal) (msg : PbftMessage) : Except PbftError Unit :=
  if msg.blockId ≠ sl.blockId then .error .invalidMessage
  else if msg.info.view ≠ sl.info.view then .error .invalidMessage
  else if msg.info.seqNum ≠ sl.info.seqNum then .error .invalidMessage
  else .ok ()

/-- Insertion into the voter-id set (`HashSet::insert`), as a duplicate-free
list keeping first occurrences. -/
def insertId (ids : List Nat) (i : Nat) : List Nat :=
  if ids.contains i then ids else ids ++ [i]

/-- The `try_fold` accumulating the voter-id set: verify each vote in order,
stopping at the first failure. -/
def collectVoteIds (env : Env) (t : MsgType) (criteria : PbftMessage → Except PbftError Unit)
    (acc : List Nat) : List PbftSignedVote → Except PbftError (List Nat)
  | [] => .ok acc
  | v :: rest =>
    match verifyVote env v t criteria with
    | .error e => .error e
    | .ok id => collectVoteIds env t criteria (insertId acc id) rest

/-- `verify_consensus_seal` (consensus.rs lines 1769-1856): verify every
commit vote against the seal's (block, view, seq) with expected type
Commit; query the membership at `seal.info.seq_num - 1`; require the
seal's signer to be a member, the voter ids to be a subset of the members
minus the signer, and at least `2f` distinct voter ids.  `previousId` is
carried (as in the source) but only logged there. -/
def verifyConsensusSeal (env : Env) (st : PbftState) (sl : PbftSeal) (previousId : Nat) :
    Except PbftError Unit :=
  let _ := previousId
  match collectVoteIds env .commit (sealVoteCriteria sl) [] sl.commitVotes with
  | .error e => .error e
  | .ok voterIds =>
    match env.membersAt (sl.info.seqNum - 1) with
    | .error e => .error e
    | .ok members =>
      if ¬ members.contains sl.info.signerId then .error .invalidMessage
      else
        let peerIds := members.filter (fun pid => pid ≠ sl.info.signerId)
        if ¬ voterIds.all (fun i => peerIds.contains i) then .error .invalidMessage
        else if voterIds.length < 2 * st.f then .error .invalidMessage
        else .ok ()

/-- `verify_new_view` (consensus.rs lines 1639-1708): future view, from the
new primary, each ViewChange vote verified with a matching view, voter ids
a subset of the current members minus the primary, and at least 2f of
them. -/
def verifyNewView (env : Env) (st : PbftState) (nv : PbftNewView) : Except PbftError Unit :=
  if nv.info.view ≤ st.view then .error .invalidMessage
  else if nv.info.signerId ≠ st.getPrimaryIdAtView nv.info.view then .error .invalidMessage
  else
    match collectVoteIds env .viewChange
        (fun m => if m.info.view ≠ nv.info.view then .error .invalidMessage else .ok ())
        [] nv.viewChanges with
    | .error e => .error e
    | .ok voterIds =>
      let peerIds := st.validators.filter (fun pid => pid ≠ nv.info.signerId)
      if ¬ voterIds.all (fun i => peerIds.contains i) then .error .invalidMessage
      else if voterIds.length < 2 * st.f then .error .invalidMessage
      else .ok ()

/-- `signed_votes_from_messages`: re-wrap logged messages as signed votes;
the vote's message bytes are the re-encoding of the logged message, so its
decoding is the message itself and its hash is `keccak256` of that
encoding. -/
def signedVotesFromMessages (env : Env) (msgs : List LogMsg) : List PbftSignedVote :=
  msgs.map (fun m =>
    { msgDec := some m.msg, headerDec := m.headerDec, sigRecover := m.sigRecover,
      msgHash := env.keccakOfMsg m.msg })

/-- `ParsedMessage::from_signed_vote`: decode the vote's message bytes,
keeping the header bytes and signature; not from self. -/
def fromSignedVote (vote : PbftSignedVote) : Except PbftError LogMsg :=
  match vote.msgDec with
  | none => .error .serializationError
  | some m =>
    .ok { msg := m, fromSelf := false, headerDec := vote.headerDec,
          sigRecover := vote.sigRecover }

/-- First-occurrence keys of the (block_id, view) grouping in `build_seal`. -/
def firstKeys (l : List (Nat × Nat)) : List (Nat × Nat) :=
  l.foldl (fun acc k => if acc.contains k then acc else acc ++ [k]) []

/-- `build_seal` (consensus.rs lines 1500-1551): take the non-self Commit
messages at `seq_num - 1`, group them by (block_id, view), find a group
with at least `2f` messages, and wrap that group's messages into a seal.
The source iterates a `HashMap` in arbitrary order; the model picks the
first qualifying group in log order, which is the same seal whenever at
most one group qualifies (the invariant the source comments assert). -/
def buildSeal (env : Env) (w : World) : Except PbftError PbftSeal :=
  let commits := (w.log.getMessagesOfTypeSeq .commit (w.st.seqNum - 1)).filter
    (fun m => ¬ m.fromSelf)
  let groupOf := fun (k : Nat × Nat) =>
    commits.filter (fun m => m.msg.blockId == k.1 && m.msg.info.view == k.2)
  match (firstKeys (commits.map (fun m => (m.msg.blockId, m.msg.info.view)))).find?
      (fun k => 2 * w.st.f ≤ (groupOf k).length) with
  | none => .error .internalError
  | some k =>
    .ok { info := { ptype := MsgType.sealType.toU8, view := k.2, seqNum := w.st.seqNum - 1,
                    signerId := w.st.id },
          blockId := k.1,
          commitVotes := signedVotesFromMessages env (groupOf k) }

/-!  The stateful handlers.  The source's `broadcast_message` with
`to_self = true` re-enters `on_peer_message` on the node's own message;
this recursion is tied with an explicit fuel (`selfSendFuel`): every
recursive self-dispatch consumes one unit, and exhaustion yields the
`fuelOut` artifact.  Each handler is written against an abstract
`recur` callback standing for that self-dispatch. -/

/-- The self-dispatch callback: peer id, parsed message, world. -/
def Recur : Type := Nat → ParsedMessage → World → Outcome

/-- The wire form of a parsed message. -/
def netMsgOf : ParsedMessage → NetMsg
  | .message m => .pbft m.msg
  | .newView nv _ => .newView nv
  | .sealMsg s _ => .sealMsg s
  | .blockNew b _ => .blockNew b
  | .newValidator v _ => .newValidator v

/-- `broadcast_message` (consensus.rs lines 1976-2025): serialize, build and
sign the header (signing is the abstracted `env.signingWorks`; a failure is
a SigningError before anything is sent); with `to_all` send to every peer
(empty peer list) and return; otherwise send to the members and, with
`to_self`, handle the message locally through `on_peer_message`. -/
def broadcastMessageF (recur : Recur) (env : Env) (pm : ParsedMessage)
    (toAll toSelf : Bool) (w : World) : Outcome :=
  if ¬ env.signingWorks then .err .signingError w
  else if toAll then .ok (w.emit (.broadcastNet [] (netMsgOf pm)))
  else
    let w := w.emit (.broadcastNet w.st.validators (netMsgOf pm))
    if toSelf then recur w.st.id pm w else .ok w

/-- `broadcast_pbft_message` (consensus.rs lines 1947-1973): build the
message from the node's id, send to all only for AnnounceBlock, send to
self except for SealRequest. -/
def broadcastPbftMessageF (recur : Recur) (env : Env) (view seqNum : Nat) (t : MsgType)
    (blockId : Nat) (w : World) : Outcome :=
  let msg : PbftMessage :=
    { info := { ptype := t.toU8, view := view, seqNum := seqNum, signerId := w.st.id },
      blockId := blockId }
  let toAll := t == MsgType.announceBlock
  let toSelf := t != MsgType.sealRequest
  broadcastMessageF recur env
    (.message { msg := msg, fromSelf := true, headerDec := none, sigRecover := none })
    toAll toSelf w

/-- `start_view_change` (consensus.rs lines 2183-2213): no-op when already
changing to this or a later view; otherwise set the mode, stop the idle,
commit and view-change timers, and broadcast a ViewChange for the target
view at `seq_num - 1` with a zero block id. -/
def startViewChangeF (recur : Recur) (env : Env) (view : Nat) (w : World) : Outcome :=
  if (match w.st.mode with | .viewChanging v => decide (view ≤ v) | _ => false) then .ok w
  else
    let st := { w.st with
      mode := .viewChanging view,
      idleTimeout := w.st.idleTimeout.stop,
      commitTimeout := w.st.commitTimeout.stop,
      viewChangeTimeout := w.st.viewChangeTimeout.stop }
    broadcastPbftMessageF recur env view (st.seqNum - 1) .viewChange 0 { w with st := st }

/-- `try_preparing` (consensus.rs lines 1344-1377): when the block is
validated, the node is PrePreparing, the matching PrePrepare is logged and
the block is at the current sequence number: switch to Preparing, stop the
idle timer, start the commit timer, and broadcast a Prepare unless
primary. -/
def tryPreparingF (recur : Recur) (env : Env) (blockId : Nat) (w : World) : Outcome :=
  match w.log.getBlockWithId blockId with
  | none => .ok w
  | some block =>
    if w.st.phase == PbftPhase.prePreparing
        && w.log.hasPrePrepare w.st.seqNum w.st.view blockId
        && block.blockNum == w.st.seqNum then
      match w.st.switchPhase .preparing with
      | .error e => .err e w
      | .ok st =>
        let st := { st with idleTimeout := st.idleTimeout.stop,
                            commitTimeout := st.commitTimeout.start }
        let w := { w with st := st }
        if ¬ w.st.isPrimary then
          broadcastPbftMessageF recur env w.st.view w.st.seqNum .prepareMsg blockId w
        else .ok w
    else .ok w

/-- `save_seal` (consensus.rs lines 2145-2154): persist the encoded seal. -/
def saveSealW (env : Env) (sl : PbftSeal) (w : World) : Outcome :=
  let w := w.emit (.saveSeal sl)
  if env.saveSealOk then .ok w else .err .internalError w

/-- `catchup` (consensus.rs lines 1064-1144): parse the seal's commit votes
(the read of `messages[0]` panics on an empty list), update the view to
the first vote's view if it differs, append the messages to the log; when
the client has no latest header, commit the seal's block through the
execution engine; take the committed block's timestamp from the header
store (error when absent); push the BlockCommit event, stop the idle
timer, set the phase to Finishing(catchup_again), and persist the seal. -/
def catchup (env : Env) (sl : PbftSeal) (catchupAgain : Bool) (w : World) : Outcome :=
  match sl.commitVotes.mapM fromSignedVote with
  | .error e => .err e w
  | .ok messages =>
    match messages.head? with
    | none => .panic
    | some m0 =>
      let st := if m0.msg.info.view ≠ w.st.view then { w.st with view := m0.msg.info.view }
                else w.st
      let log := messages.foldl PbftLog.addMessage w.log
      let w := { w with st := st, log := log }
      let commitStep : Outcome :=
        match env.latestHeader with
        | some _ => .ok w
        | none =>
          let w := w.emit (.commitBlock sl.blockId)
          match env.commitBlock sl.blockId with
          | none => .err .serviceError w
          | some _ => .ok w
      commitStep.andThen fun w =>
        match env.headerById sl.blockId with
        | none => .err .internalError w
        | some timestamp =>
          let w := w.emit (.pushBlockCommit sl.blockId timestamp false)
          let st := { w.st with idleTimeout := w.st.idleTimeout.stop,
                                phase := .finishing catchupAgain }
          saveSealW env sl { w with st := st }

/-- `verify_consensus_seal_from_block` (consensus.rs lines 1712-1763):
blocks below number 2 carry no verifiable seal and yield the default
seal; otherwise the seal bytes must be non-empty and decodable, the
seal must name the block's parent, the proven block must be in the log,
and the seal itself must verify against that block's parent id. -/
def verifyConsensusSealFromBlock (env : Env) (w : World) (block : ClayerBlock) :
    Except PbftError PbftSeal :=
  if block.blockNum < 2 then .ok PbftSeal.default0
  else
    match block.sealBytes with
    | .empty => .error .invalidMessage
    | .malformed => .error .serializationError
    | .val sl =>
      if sl.blockId ≠ block.parentId then .error .invalidMessage
      else
        match w.log.getBlockWithId sl.blockId with
        | none => .error .internalError
        | some provenBlock =>
          match verifyConsensusSeal env w.st sl provenBlock.parentId with
          | .error e => .error e
          | .ok _ => .ok sl

/-- `try_handling_block` (consensus.rs lines 982-1039): blocks beyond
`seq_num + 1` wait; a failing seal verification fails the block; a future
block's seal triggers catch-up unless the node is Finishing; the block at
the current sequence number triggers a PrePrepare broadcast (own block,
primary) or `try_preparing`. -/
def tryHandlingBlockF (recur : Recur) (env : Env) (block : ClayerBlock) (w : World) : Outcome :=
  if block.blockNum > w.st.seqNum + 1 then .ok w
  else
    match verifyConsensusSealFromBlock env w block with
    | .error _ => .err .invalidMessage (w.emit (.failBlock block.blockId))
    | .ok sl =>
      let isWaiting := match w.st.phase with | .finishing _ => true | _ => false
      if block.blockNum > w.st.seqNum && !isWaiting then
        catchup env sl true w
      else if block.blockNum == w.st.seqNum then
        if block.info.signerId == w.st.id && w.st.isPrimary then
          broadcastPbftMessageF recur env w.st.view w.st.seqNum .prePrepare block.blockId w
        else
          tryPreparingF recur env block.blockId w
      else .ok w

/-- `on_block_valid` (consensus.rs lines 960-976): promote the block in the
log and attempt to handle it. -/
def onBlockValidF (recur : Recur) (env : Env) (blockId : Nat) (w : World) : Outcome :=
  match w.log.blockValidated blockId with
  | none => .err .invalidMessage w
  | some (block, log) => tryHandlingBlockF recur env block { w with log := log }

/-- `on_block_new` (consensus.rs lines 866-954): reject blocks older than
the current sequence number, blocks whose parent is unknown, and blocks
whose parent has the wrong number (each failing the block at the engine);
then insert the block as unvalidated; reject a zero payload id; have the
engine check the block and optimistically call `on_block_valid`. -/
def onBlockNewF (recur : Recur) (env : Env) (block : ClayerBlock) (w : World) : Outcome :=
  if block.blockNum < w.st.seqNum then
    .err .internalError (w.emit (.failBlock block.blockId))
  else
    let previousBlock :=
      match w.log.getBlockWithId block.parentId with
      | some p => some p
      | none => w.log.getUnvalidatedBlockWithId block.parentId
    match previousBlock with
    | none => .err .internalError (w.emit (.failBlock block.blockId))
    | some prev =>
      if prev.blockNum ≠ block.blockNum - 1 then
        .err .internalError (w.emit (.failBlock block.blockId))
      else
        let w := { w with log := w.log.addUnvalidatedBlock block }
        if block.payloadId == 0 then .err .internalError w
        else
          let w := w.emit (.checkBlocks block.payloadId)
          if ¬ env.checkBlocksOk then .err .serviceError w
          else onBlockValidF recur env block.blockId w

/-- `handle_pre_prepare` (consensus.rs lines 319-379): silently ignore
messages not from the current primary; reject a mismatched view; on an
existing PrePrepare with the same view and seq but a different block,
start a view change to view + 1 and report FaultyPrimary; otherwise add
the message and try preparing. -/
def handlePrePrepareF (recur : Recur) (env : Env) (m : LogMsg) (w : World) : Outcome :=
  if m.msg.info.signerId ≠ w.st.getPrimaryId then .ok w
  else if m.msg.info.view ≠ w.st.view then .err .invalidMessage w
  else
    let mismatchedBlocks :=
      (w.log.getMessagesOfTypeSeqView .prePrepare m.msg.info.seqNum m.msg.info.view).filter
        (fun ex => ex.msg.blockId ≠ m.msg.blockId)
    if ¬ mismatchedBlocks.isEmpty then
      (startViewChangeF recur env (w.st.view + 1) w).andThen fun w => .err .faultyPrimary w
    else
      let w := { w with log := w.log.addMessage m }
      tryPreparingF recur env m.msg.blockId w

/-- `handle_prepare` (consensus.rs lines 386-449): reject a mismatched view;
a Prepare from the primary starts a view change and reports FaultyPrimary;
otherwise add the message, and when it is for the current sequence number
in the Preparing phase with a matching PrePrepare and more than 2f
matching Prepares, switch to Committing and broadcast a Commit. -/
def handlePrepareF (recur : Recur) (env : Env) (m : LogMsg) (w : World) : Outcome :=
  if m.msg.info.view ≠ w.st.view then .err .invalidMessage w
  else if m.msg.info.signerId == w.st.getPrimaryId then
    (startViewChangeF recur env (w.st.view + 1) w).andThen fun w => .err .faultyPrimary w
  else
    let info := m.msg.info
    let blockId := m.msg.blockId
    let w := { w with log := w.log.addMessage m }
    if info.seqNum == w.st.seqNum && w.st.phase == PbftPhase.preparing then
      if w.log.hasPrePrepare info.seqNum info.view blockId
          && 2 * w.st.f <
            (w.log.getMessagesOfTypeSeqViewBlock .prepareMsg info.seqNum info.view blockId).length
      then
        match w.st.switchPhase .committing with
        | .error e => .err e w
        | .ok st =>
          broadcastPbftMessageF recur env st.view st.seqNum .commit blockId { w with st := st }
      else .ok w
    else .ok w

/-- `handle_commit` (consensus.rs lines 455-528): reject a mismatched view;
add the message; when it is for the current sequence number in the
Committing phase with a matching PrePrepare and more than 2f matching
Commits, commit the block through the execution engine, push the
BlockCommit event with the payload's timestamp and committing = true,
switch to Finishing(false), stop the commit timer, and broadcast an
AnnounceBlock for the block. -/
def handleCommitF (recur : Recur) (env : Env) (m : LogMsg) (w : World) : Outcome :=
  if m.msg.info.view ≠ w.st.view then .err .invalidMessage w
  else
    let info := m.msg.info
    let blockId := m.msg.blockId
    let w := { w with log := w.log.addMessage m }
    if info.seqNum == w.st.seqNum && w.st.phase == PbftPhase.committing then
      if w.log.hasPrePrepare info.seqNum info.view blockId
          && 2 * w.st.f <
            (w.log.getMessagesOfTypeSeqViewBlock .commit info.seqNum info.view blockId).length
      then
        let w := w.emit (.commitBlock blockId)
        match env.commitBlock blockId with
        | none => .err .serviceError w
        | some ts =>
          let w := w.emit (.pushBlockCommit blockId ts true)
          match w.st.switchPhase (.finishing false) with
          | .error e => .err e w
          | .ok st =>
            let st := { st with commitTimeout := st.commitTimeout.stop }
            broadcastPbftMessageF recur env st.view st.seqNum .announceBlock blockId
              { w with st := st }
      else .ok w
    else .ok w

/-- `handle_view_change` (consensus.rs lines 536-623): drop stale messages
(view at most the current one, or below the target of an ongoing view
change); add the message; with more than f ViewChanges for a later view,
start the view change early; with more than 2f of them and an inactive
view-change timer, arm the timer scaled by the view distance; when this
node is the primary at that view and at least 2f ViewChanges from other
nodes are logged, broadcast a NewView built from their votes. -/
def handleViewChangeF (recur : Recur) (env : Env) (m : LogMsg) (w : World) : Outcome :=
  let msgView := m.msg.info.view
  if msgView ≤ w.st.view
      || (match w.st.mode with | .viewChanging v => msgView < v | _ => false) then
    .ok w
  else
    let w := { w with log := w.log.addMessage m }
    let isLaterView := match w.st.mode with
      | .viewChanging v => msgView > v
      | .normal => true
    let startViewChangeNow :=
      w.st.f < (w.log.getMessagesOfTypeView .viewChange msgView).length
    if isLaterView && startViewChangeNow then
      startViewChangeF recur env msgView w
    else
      let messages := w.log.getMessagesOfTypeView .viewChange msgView
      let w :=
        if ¬ w.st.viewChangeTimeout.active && 2 * w.st.f < messages.length then
          { w with st := { w.st with viewChangeTimeout :=
              { active := true, duration := w.st.viewChangeDuration * (msgView - w.st.view) } } }
        else w
      let messagesFromOtherNodes := messages.filter (fun x => ¬ x.fromSelf)
      if w.st.isPrimaryAtView msgView && 2 * w.st.f ≤ messagesFromOtherNodes.length then
        let nv : PbftNewView :=
          { info := { ptype := MsgType.newView.toU8, view := msgView,
                      seqNum := w.st.seqNum - 1, signerId := w.st.id },
            viewChanges := signedVotesFromMessages env messagesFromOtherNodes }
        broadcastMessageF recur env (.newView nv true) false true w
      else .ok w

/-- `handle_new_view` (consensus.rs lines 629-678): verify the NewView
(failures become InvalidMessage); a primary cancels its in-flight block
(failures swallowed); update the view, stop the view-change timer, return
to Normal mode, reset the phase to PrePreparing unless Finishing, start
the idle timer; the new primary initializes a block. -/
def handleNewViewW (env : Env) (nv : PbftNewView) (w : World) : Outcome :=
  match verifyNewView env w.st nv with
  | .error _ => .err .invalidMessage w
  | .ok _ =>
    let w := if w.st.isPrimary then w.emit .cancelBlock else w
    let st := { w.st with view := nv.info.view,
                          viewChangeTimeout := w.st.viewChangeTimeout.stop }
    let st := { st with mode := .normal,
                        phase := match st.phase with
                          | .finishing b => .finishing b
                          | _ => .prePreparing,
                        idleTimeout := st.idleTimeout.start }
    let w := { w with st := st }
    if w.st.isPrimary then
      let w := w.emit (.initializeBlock none)
      if env.initializeBlockOk then .ok w else .err .serviceError w
    else .ok w

/-- `send_seal_response` (consensus.rs lines 2054-2097): build the seal for
the last committed block (failure is an InternalError), sign, and send it
to the requester. -/
def sendSealResponseW (env : Env) (recipient : Nat) (w : World) : Outcome :=
  match buildSeal env w with
  | .error _ => .err .internalError w
  | .ok sl =>
    if ¬ env.signingWorks then .err .signingError w
    else .ok (w.emit (.broadcastNet [recipient] (.sealMsg sl)))

/-- `send_seal_response_v2` (consensus.rs lines 2102-2143): sign and send an
already-loaded seal to the requester. -/
def sendSealResponseV2W (env : Env) (recipient : Nat) (sl : PbftSeal) (w : World) : Outcome :=
  if ¬ env.signingWorks then .err .signingError w
  else .ok (w.emit (.broadcastNet [recipient] (.sealMsg sl)))

/-- `handle_seal_request` (consensus.rs lines 688-708): the seal for the
just-committed block is built and sent; a request at the current sequence
number is logged for later; for an older block the stored seal is loaded
and sent when present; anything else is ignored. -/
def handleSealRequestW (env : Env) (peerId : Nat) (m : LogMsg) (w : World) : Outcome :=
  if w.st.seqNum == m.msg.info.seqNum + 1 then
    sendSealResponseW env m.msg.info.signerId w
  else if w.st.seqNum == m.msg.info.seqNum then
    .ok { w with log := w.log.addMessage m }
  else if w.st.seqNum > m.msg.info.seqNum + 1 then
    match env.loadSeal m.msg.blockId with
    | .error e => .err e w
    | .ok (some sl) => sendSealResponseV2W env peerId sl w
    | .ok none => .ok w
  else .ok w

/-- `handle_seal_response` (consensus.rs lines 714-769): ignore when already
Finishing; require the block named by the seal to be logged at the current
sequence number; verify the seal against the block's parent id (failures
become InvalidMessage); then catch up with `catchup_again = false`. -/
def handleSealResponseW (env : Env) (s : PbftSeal) (w : World) : Outcome :=
  match w.st.phase with
  | .finishing _ => .ok w
  | _ =>
    match w.log.getBlockWithId s.blockId with
    | none => .err .invalidMessage w
    | some block =>
      if block.blockNum ≠ w.st.seqNum then .err .invalidMessage w
      else
        match verifyConsensusSeal env w.st s block.parentId with
        | .error _ => .err .invalidMessage w
        | .ok _ => catchup env s false w

/-- `handle_announceblock_response` (consensus.rs lines 772-800): when the
block hash is not in the announce LRU, insert it, notify the execution
engine (`announce_block`, result ignored) and re-broadcast the
AnnounceBlock; otherwise do nothing. -/
def handleAnnounceblockResponseF (recur : Recur) (env : Env) (m : LogMsg) (w : World) : Outcome :=
  let blockhash := m.msg.blockId
  if ¬ lruContains w.announce blockhash then
    let w := { w with announce := lruInsert w.announceCap w.announce blockhash m.msg.info.seqNum }
    let w := w.emit (.announceUpstream blockhash)
    broadcastPbftMessageF recur env w.st.view w.st.seqNum .announceBlock blockhash w
  else .ok w

/-- `handle_new_validator` (consensus.rs lines 802-816): a node named by the
notice that is not yet becoming a validator records that it is. -/
def handleNewValidatorW (v : PbftNewValidator) (w : World) : Outcome :=
  if w.st.id == v.peerid && w.st.becomingValidator == false then
    .ok { w with st := { w.st with becomingValidator := true } }
  else .ok w

/-- Modelled from the spec: validators.rs is absent from src; `compare`
reports an added member as (1, peer), a removed one as (-1, peer), and
no difference as (0, 0). -/
def validatorsCompare (old onChain : List Nat) : Int × Nat :=
  match onChain.find? (fun p => ¬ old.contains p) with
  | some p => (1, p)
  | none =>
    match old.find? (fun p => ¬ onChain.contains p) with
    | some p => (-1, p)
    | none => (0, 0)

/-- Modelled from the spec: `is_same` compares the membership lists. -/
def validatorsIsSame (old onChain : List Nat) : Bool := old == onChain

/-- `update_membership` (consensus.rs lines 1290-1339): query the on-chain
members (a parse failure falls back to the current members); on a change,
update the list and recompute f = (N - 1) / 3, panicking when f = 0; on an
addition, a node that was and stays a validator broadcasts a NewValidator
notice (result discarded); a validator that was becoming one resets the
flag. -/
def updateMembershipF (recur : Recur) (env : Env) (blockNumber : Nat) (w : World) : Outcome :=
  let lastIsValidator := w.st.isValidator
  let onChainMembers :=
    match env.membersAt blockNumber with
    | .ok l => l
    | .error _ => w.st.validators
  let cmp := validatorsCompare w.st.validators onChainMembers
  let updated : Option World :=
    if ¬ validatorsIsSame w.st.validators onChainMembers then
      let newF := (onChainMembers.length - 1) / 3
      if newF == 0 then none
      else some { w with st := { w.st with validators := onChainMembers, f := newF } }
    else some w
  match updated with
  | none => .panic
  | some w =>
    let afterBroadcast : Outcome :=
      if lastIsValidator && w.st.isValidator && cmp.1 > 0 then
        let nvMsg : PbftNewValidator :=
          { info := { ptype := MsgType.newValidator.toU8, view := w.st.view,
                      seqNum := blockNumber, signerId := w.st.id },
            peerid := cmp.2 }
        match broadcastMessageF recur env (.newValidator nvMsg true) false true w with
        | .ok w' => .ok w'
        | .err _ w' => .ok w'
        | .panic => .panic
        | .fuelOut w' => .fuelOut w'
      else .ok w
    afterBroadcast.andThen fun w =>
      if w.st.isValidator && w.st.becomingValidator then
        .ok { w with st := { w.st with becomingValidator := false } }
      else .ok w

/-- The `fail_block` calls for the other blocks at the committed height
(consensus.rs lines 1163-1180). -/
def failOtherBlocks (w : World) (blockId : Nat) : World :=
  let invalidBlockIds :=
    ((w.log.getBlocksWithNum w.st.seqNum).filter (fun b => b.blockId ≠ blockId)).map
      (fun b => b.blockId)
  invalidBlockIds.foldl (fun w id => w.emit (.failBlock id)) w

/-- The state update of `on_block_commit` (consensus.rs lines 1182-1187):
increment the sequence number, reset mode and phase, set the chain head
and the last block timestamp. -/
def commitStateUpdate (w : World) (blockId ts : Nat) : World :=
  { w with st := { w.st with
      seqNum := w.st.seqNum + 1,
      mode := .normal,
      phase := .prePreparing,
      chainHead := blockId,
      lastBlockTimestamp := ts } }

/-- The seal-response loop of `on_block_commit` (lines 1205-1209); send
failures are logged and swallowed. -/
def sendSealsToRequesters (env : Env) (reqs : List Nat) (w : World) : World :=
  reqs.foldl (fun w r =>
    match sendSealResponseW env r w with
    | .ok w' => w'
    | .err _ w' => w'
    | _ => w) w

/-- The grandchildren loop of `on_block_commit` (lines 1234-1238): the first
successful `try_handling_block` short-circuits (second component true). -/
def tryGrandchildrenLoop (recur : Recur) (env : Env) :
    List ClayerBlock → World → Outcome × Bool
  | [], w => (.ok w, false)
  | b :: rest, w =>
    match tryHandlingBlockF recur env b w with
    | .ok w' => (.ok w', true)
    | .err _ w' => tryGrandchildrenLoop recur env rest w'
    | .panic => (.panic, false)
    | .fuelOut w' => (.fuelOut w', false)

/-- The `try_preparing` loop of `on_block_commit` (lines 1266-1268), with
`?` on every call. -/
def tryPreparingLoop (recur : Recur) (env : Env) : List Nat → World → Outcome
  | [], w => .ok w
  | id :: rest, w =>
    (tryPreparingF recur env id w).andThen (tryPreparingLoop recur env rest)

/-- `on_block_commit` (consensus.rs lines 1151-1283): fail the other blocks
at this height; advance the state; when committing, build and persist the
seal; answer pending seal requests; update the membership at
`seq_num - 1`; force a view change when due; garbage-collect; use a
grandchild to catch up when possible; a catching-up node requests the
missing seal; otherwise start the idle timer, try preparing the logged
blocks at this height, and a primary initializes the next block. -/
def onBlockCommitF (recur : Recur) (env : Env) (blockId ts : Nat) (committing : Bool)
    (w : World) : Outcome :=
  let isCatchingUp := w.st.phase == PbftPhase.finishing true
  let w := failOtherBlocks w blockId
  let w := commitStateUpdate w blockId ts
  let sealStep : Outcome :=
    if committing then
      match buildSeal env w with
      | .error _ => .err .internalError w
      | .ok sl => saveSealW env sl w
    else .ok w
  sealStep.andThen fun w =>
  let requesters :=
    (w.log.getMessagesOfTypeSeq .sealRequest (w.st.seqNum - 1)).map
      (fun r => r.msg.info.signerId)
  let w := sendSealsToRequesters env requesters w
  (updateMembershipF recur env (w.st.seqNum - 1) w).andThen fun w =>
  let w := if w.st.atForcedViewChange then { w with st := { w.st with view := w.st.view + 1 } }
           else w
  let w := { w with log := w.log.garbageCollect w.st.seqNum }
  let grandchildren := w.log.getBlocksWithNum (w.st.seqNum + 1)
  match tryGrandchildrenLoop recur env grandchildren w with
  | (o, true) => o
  | (.ok w, false) =>
    if isCatchingUp then
      broadcastPbftMessageF recur env w.st.view w.st.seqNum .sealRequest 0 w
    else
      let w := { w with st := { w.st with idleTimeout := w.st.idleTimeout.start } }
      let blockIds := (w.log.getBlocksWithNum w.st.seqNum).map (fun b => b.blockId)
      (tryPreparingLoop recur env blockIds w).andThen fun w =>
        if w.st.isPrimary then
          let w := w.emit (.initializeBlock (some blockId))
          if env.initializeBlockOk then .ok w else .err .serviceError w
        else .ok w
  | (o, false) => o

/-- `on_peer_message` (consensus.rs lines 239-306): reject non-members; a
non-validator node handles only AnnounceBlock, NewValidator and (when
becoming a validator) Seal; a view-changing node ignores everything but
ViewChange and NewView; otherwise dispatch on the type.  A wrapper not
matching its type code models the accessor panics of `ParsedMessage`. -/
def onPeerMessageF (recur : Recur) (env : Env) (peerId : Nat) (pm : ParsedMessage)
    (w : World) : Outcome :=
  if ¬ w.st.validators.contains pm.info.signerId then .err .invalidMessage w
  else
    let msgType := MsgType.ofU8 pm.info.ptype
    if ¬ w.st.isValidator then
      match msgType with
      | .announceBlock =>
        match pm.asLogMsg with
        | some m => handleAnnounceblockResponseF recur env m w
        | none => .panic
      | .newValidator =>
        match pm.asNewValidator with
        | some v => handleNewValidatorW v w
        | none => .panic
      | .sealType =>
        if w.st.becomingValidator then
          match pm.asSeal with
          | some s => handleSealResponseW env s w
          | none => .panic
        else .ok w
      | _ => .ok w
    else if (match w.st.mode with | .viewChanging _ => true | _ => false)
        && msgType ≠ MsgType.viewChange && msgType ≠ MsgType.newView then
      .ok w
    else
      match msgType with
      | .prePrepare =>
        match pm.asLogMsg with
        | some m => handlePrePrepareF recur env m w
        | none => .panic
      | .prepareMsg =>
        match pm.asLogMsg with
        | some m => handlePrepareF recur env m w
        | none => .panic
      | .commit =>
        match pm.asLogMsg with
        | some m => handleCommitF recur env m w
        | none => .panic
      | .viewChange =>
        match pm.asLogMsg with
        | some m => handleViewChangeF recur env m w
        | none => .panic
      | .newView =>
        match pm.asNewView with
        | some nv => handleNewViewW env nv w
        | none => .panic
      | .sealRequest =>
        match pm.asLogMsg with
        | some m => handleSealRequestW env peerId m w
        | none => .panic
      | .sealType =>
        match pm.asSeal with
        | some s => handleSealResponseW env s w
        | none => .panic
      | .blockNew =>
        match pm.asBlockNew with
        | some b => onBlockNewF recur env b w
        | none => .panic
      | .announceBlock =>
        match pm.asLogMsg with
        | some m => handleAnnounceblockResponseF recur env m w
        | none => .panic
      | _ => .ok w

/-- The fueled self-dispatch: each nested `on_peer_message` consumes one
unit of fuel. -/
def selfSendFuel (env : Env) : Nat → Recur
  | 0 => fun _ _ w => .fuelOut w
  | n + 1 => fun peerId pm w => onPeerMessageF (selfSendFuel env n) env peerId pm w

/-- `on_peer_message` at a given fuel. -/
def onPeerMessage (env : Env) (fuel peerId : Nat) (pm : ParsedMessage) (w : World) : Outcome :=
  onPeerMessageF (selfSendFuel env fuel) env peerId pm w

/-- `handle_pre_prepare` at a given fuel. -/
def handlePrePrepare (env : Env) (fuel : Nat) (m : LogMsg) (w : World) : Outcome :=
  handlePrePrepareF (selfSendFuel env fuel) env m w

/-- `handle_prepare` at a given fuel. -/
def handlePrepare (env : Env) (fuel : Nat) (m : LogMsg) (w : World) : Outcome :=
  handlePrepareF (selfSendFuel env fuel) env m w

/-- `handle_commit` at a given fuel. -/
def handleCommit (env : Env) (fuel : Nat) (m : LogMsg) (w : World) : Outcome :=
  handleCommitF (selfSendFuel env fuel) env m w

/-- `handle_view_change` at a given fuel. -/
def handleViewChange (env : Env) (fuel : Nat) (m : LogMsg) (w : World) : Outcome :=
  handleViewChangeF (selfSendFuel env fuel) env m w

/-- `handle_announceblock_response` at a given fuel. -/
def handleAnnounceblockResponse (env : Env) (fuel : Nat) (m : LogMsg) (w : World) : Outcome :=
  handleAnnounceblockResponseF (selfSendFuel env fuel) env m w

/-- `try_handling_block` at a given fuel. -/
def tryHandlingBlock (env : Env) (fuel : Nat) (block : ClayerBlock) (w : World) : Outcome :=
  tryHandlingBlockF (selfSendFuel env fuel) env block w

/-- `on_block_new` at a given fuel. -/
def onBlockNew (env : Env) (fuel : Nat) (block : ClayerBlock) (w : World) : Outcome :=
  onBlockNewF (selfSendFuel env fuel) env block w

/-- `on_block_commit` at a given fuel. -/
def onBlockCommit (env : Env) (fuel blockId ts : Nat) (committing : Bool) (w : World) :
    Outcome :=
  onBlockCommitF (selfSendFuel env fuel) env blockId ts committing w

/-- The number of distinct elements of a list, in the sense of the voter-id
set accumulation. -/
def distinctCount (l : List Nat) : Nat := (l.foldl insertId []).length

/-!  Concrete fixtures used by witnesses and counterexamples. -/

/-- A benign environment: every collaborator call succeeds, identities are
their own keys and addresses, the header store knows every block with
timestamp 50. -/
def envC : Env :=
  { commitBlock := fun _ => some 100,
    checkBlocksOk := true, initializeBlockOk := true, saveSealOk := true, signingWorks := true,
    latestHeader := none, headerById := fun _ => some 50,
    membersAt := fun _ => .ok [1, 2, 3, 4],
    loadSeal := fun _ => .ok none,
    id2pk := fun i => some i, pkToAddr := fun p => p,
    keccakOfMsg := fun _ => 0 }

/-- `envC` with a latest header present in the client store. -/
def envLatest : Env := { envC with latestHeader := some (5, 99) }

/-- A four-member network (f = 1), this node is 1, view 0, seq 1. -/
def stC : PbftState :=
  { id := 1, view := 0, seqNum := 1, phase := .prePreparing, mode := .normal, f := 1,
    validators := [1, 2, 3, 4], chainHead := 0, lastBlockTimestamp := 0,
    becomingValidator := false,
    idleTimeout := ⟨false, 0⟩, commitTimeout := ⟨false, 0⟩, viewChangeTimeout := ⟨false, 0⟩,
    viewChangeDuration := 5, forcedViewChangePeriod := 100 }

/-- A fresh world over `stC`. -/
def wC : World := engineNew stC

/-- A Commit vote from signer s for (view v, seq n, block b) whose decode
and signature oracles all succeed. -/
def mkVote (s v n b : Nat) : PbftSignedVote :=
  { msgDec := some { info := { ptype := 3, view := v, seqNum := n, signerId := s }, blockId := b },
    headerDec := some { messageType := 3, contentHash := 7, signerId := s },
    sigRecover := some s, msgHash := 7 }

/-- A logged message of the given type code from signer s. -/
def mkMsg (pt v n s b : Nat) : LogMsg :=
  { msg := { info := { ptype := pt, view := v, seqNum := n, signerId := s }, blockId := b },
    fromSelf := false, headerDec := none, sigRecover := none }

/-- A seal for block 77 at (view 0, seq 5) signed by 1 with votes from 2, 3. -/
def sealC : PbftSeal :=
  { info := { ptype := 7, view := 0, seqNum := 5, signerId := 1 }, blockId := 77,
    commitVotes := [mkVote 2 0 5 77, mkVote 3 0 5 77] }

/-!  Shared helper lemmas about the log and the LRU. -/

theorem containsKey_addMessage_self (log : PbftLog) (m : LogMsg) :
    (log.addMessage m).containsKey m = true := by
  unfold PbftLog.addMessage
  by_cases h : log.containsKey m = true
  · simp [h]
  · simp [h]
    unfold PbftLog.containsKey at *
    simp [List.any_append]

theorem containsKey_addMessage_mono (log : PbftLog) (m m' : LogMsg)
    (h : log.containsKey m = true) : (log.addMessage m').containsKey m = true := by
  unfold PbftLog.addMessage
  by_cases hd : log.containsKey m' = true
  · simp [hd, h]
  · simp [hd]
    unfold PbftLog.containsKey at *
    simp [List.any_append]
    simp at h
    exact Or.inl h

theorem containsKey_foldl_addMessage_mono (msgs : List LogMsg) :
    ∀ (log : PbftLog) (m : LogMsg), log.containsKey m = true →
      (msgs.foldl PbftLog.addMessage log).containsKey m = true := by
  induction msgs with
  | nil => intro log m h; simpa using h
  | cons a rest ih =>
    intro log m h
    simpa using ih (log.addMessage a) m (containsKey_addMessage_mono log m a h)

theorem containsKey_foldl_addMessage_mem (msgs : List LogMsg) :
    ∀ (log : PbftLog) (m : LogMsg), m ∈ msgs →
      (msgs.foldl PbftLog.addMessage log).containsKey m = true := by
  induction msgs with
  | nil => intro log m h; cases h
  | cons a rest ih =>
    intro log m h
    rcases List.mem_cons.mp h with h | h
    · subst h
      exact containsKey_foldl_addMessage_mono rest (log.addMessage m) m
        (containsKey_addMessage_self log m)
    · exact ih (log.addMessage a) m h

theorem lruContains_insert (cap : Nat) (c : List (Nat × Nat)) (k v : Nat) (h : 1 ≤ cap) :
    lruContains (lruInsert cap c k v) k = true := by
  unfold lruInsert lruContains
  cases cap with
  | zero => omega
  | succ n => simp [List.take_succ_cons]

/-!  Claim C10 -/

/-- C10: a PrePrepare whose signer is not the current primary is silently
ignored: `handle_pre_prepare` returns Ok and leaves the whole engine world
(log, phase, mode, timers, effects) unchanged; no error and no view change. -/
theorem c10_pre_prepare_from_secondary_ignored (recur : Recur) (env : Env) (m : LogMsg)
    (w : World) (h : m.msg.info.signerId ≠ w.st.getPrimaryId) :
    handlePrePrepareF recur env m w = .ok w := by
  unfold handlePrePrepareF
  simp [h]

theorem c10_witness :
    (mkMsg 1 0 1 2 9).msg.info.signerId ≠ wC.st.getPrimaryId ∧
      handlePrePrepare envC 5 (mkMsg 1 0 1 2 9) wC = .ok wC :=
  ⟨by decide,
   c10_pre_prepare_from_secondary_ignored (selfSendFuel envC 5) envC (mkMsg 1 0 1 2 9) wC
     (by decide)⟩

/-!  Claim C9 -/

/-- C9: the announce LRU is created with capacity 10, and handling the same
AnnounceBlock block hash twice produces exactly one upstream
`announce_block` call and exactly one re-broadcast: the first handling
inserts the hash into the cache before acting and emits exactly the
upstream notification and the rebroadcast, and the second handling is a
no-op. -/
theorem c9_announce_dedup :
    (∀ st, (engineNew st).announceCap = 10) ∧
    ∀ (recur : Recur) (env : Env) (m m2 : LogMsg) (w : World),
      env.signingWorks = true →
      lruContains w.announce m.msg.blockId = false →
      1 ≤ w.announceCap →
      m2.msg.blockId = m.msg.blockId →
      ∃ w1,
        handleAnnounceblockResponseF recur env m w = .ok w1 ∧
        w1.effects = w.effects ++
          [.announceUpstream m.msg.blockId,
           .broadcastNet [] (.pbft
             { info := { ptype := MsgType.announceBlock.toU8, view := w.st.view,
                         seqNum := w.st.seqNum, signerId := w.st.id },
               blockId := m.msg.blockId })] ∧
        lruContains w1.announce m.msg.blockId = true ∧
        handleAnnounceblockResponseF recur env m2 w1 = .ok w1 := by
  refine ⟨fun st => rfl, ?_⟩
  intro recur env m m2 w hsign hmiss hcap hsame
  unfold handleAnnounceblockResponseF broadcastPbftMessageF broadcastMessageF
  simp [hmiss, hsign, World.emit, netMsgOf]
  have h1 := lruContains_insert w.announceCap w.announce m.msg.blockId m.msg.info.seqNum hcap
  exact ⟨h1, by rw [hsame]; exact h1⟩

theorem c9_witness :
    ∃ w1,
      handleAnnounceblockResponse envC 5 (mkMsg 9 0 1 2 42) wC = .ok w1 ∧
      w1.effects = wC.effects ++
        [.announceUpstream 42,
         .broadcastNet [] (.pbft
           { info := { ptype := MsgType.announceBlock.toU8, view := wC.st.view,
                       seqNum := wC.st.seqNum, signerId := wC.st.id },
             blockId := 42 })] ∧
      lruContains w1.announce 42 = true ∧
      handleAnnounceblockResponse envC 5 (mkMsg 9 0 1 2 42) w1 = .ok w1 :=
  (c9_announce_dedup.2 (selfSendFuel envC 5) envC (mkMsg 9 0 1 2 42) (mkMsg 9 0 1 2 42) wC
    (by decide) (by decide) (by decide) (by decide))

/-!  Claim C8 -/

theorem catchup_nil_votes (env : Env) (sl : PbftSeal) (b : Bool) (w : World)
    (h : sl.commitVotes = []) : catchup env sl b w = .panic := by
  unfold catchup
  rw [h]
  rfl

theorem verifySealFromBlock_small (env : Env) (w : World) (block : ClayerBlock)
    (h : block.blockNum < 2) :
    verifyConsensusSealFromBlock env w block = .ok PbftSeal.default0 := by
  unfold verifyConsensusSealFromBlock
  simp [h]

/-- C8: `catchup` reads the view from the first parsed commit vote without a
non-emptiness check and panics (index out of bounds) on every seal with an
empty vote list; `verify_consensus_seal_from_block` returns the default,
vote-less seal for every block with number below 2; and such a seal
reaches `catchup` through `try_handling_block` (a block numbered 1 at
sequence number 0 outside the Finishing phase), which therefore panics. -/
theorem c8_catchup_empty_votes_panics :
    (∀ (env : Env) (sl : PbftSeal) (b : Bool) (w : World), sl.commitVotes = [] →
      catchup env sl b w = .panic) ∧
    (∀ (env : Env) (w : World) (block : ClayerBlock), block.blockNum < 2 →
      verifyConsensusSealFromBlock env w block = .ok PbftSeal.default0) ∧
    (∀ (recur : Recur) (env : Env) (block : ClayerBlock) (w : World),
      block.blockNum = 1 → w.st.seqNum = 0 → (∀ b, w.st.phase ≠ .finishing b) →
      tryHandlingBlockF recur env block w = .panic) := by
  refine ⟨catchup_nil_votes, verifySealFromBlock_small, ?_⟩
  intro recur env block w hnum hseq hphase
  have hwait : (match w.st.phase with | PbftPhase.finishing _ => true | _ => false) = false := by
    cases hp : w.st.phase with
    | finishing b => exact absurd hp (hphase b)
    | _ => rfl
  unfold tryHandlingBlockF
  rw [verifySealFromBlock_small env w block (by omega), hnum, hseq]
  simp [hwait, catchup_nil_votes env PbftSeal.default0 true w rfl]


/-- A world in the Committing phase at (view 0, seq 1) whose log holds the
matching PrePrepare from the primary and Commits from nodes 3 and 4. -/
def wC2 : World :=
  { wC with
    st := { stC with phase := .committing },
    log := ⟨[mkMsg 1 0 1 1 7, mkMsg 3 0 1 3 7, mkMsg 3 0 1 4 7], [], []⟩ }

/-!  Claim C2 -/

/-- C2: `handle_commit` appends every Commit with the node's current view to
the log; when additionally the message is for the current sequence number,
the node is Committing, the (post-append) log holds the matching
PrePrepare and more than 2f matching Commits, and the execution engine
accepts the commit, the handler commits the block through the engine,
pushes a BlockCommit event with (block_id, payload timestamp,
committing = true), switches to Finishing(false), stops the commit
timeout, and broadcasts an AnnounceBlock for the block id; a Commit with a
different view is rejected with InvalidMessage and the world is left
unchanged. -/
theorem c2_handle_commit :
    ∀ (recur : Recur) (env : Env) (m : LogMsg) (w : World),
      (m.msg.info.view = w.st.view →
        ∀ w', (handleCommitF recur env m w).world = some w' →
          w'.log.containsKey m = true) ∧
      (∀ ts, m.msg.info.view = w.st.view → m.msg.info.seqNum = w.st.seqNum →
        w.st.phase = .committing →
        (w.log.addMessage m).hasPrePrepare m.msg.info.seqNum m.msg.info.view m.msg.blockId
          = true →
        2 * w.st.f <
          ((w.log.addMessage m).getMessagesOfTypeSeqViewBlock .commit m.msg.info.seqNum
            m.msg.info.view m.msg.blockId).length →
        env.commitBlock m.msg.blockId = some ts →
        env.signingWorks = true →
        handleCommitF recur env m w = .ok
          { w with
            log := w.log.addMessage m,
            st := { w.st with
                    phase := PbftPhase.finishing false,
                    commitTimeout := w.st.commitTimeout.stop },
            effects := w.effects ++
              [.commitBlock m.msg.blockId,
               .pushBlockCommit m.msg.blockId ts true,
               .broadcastNet [] (.pbft
                 { info := { ptype := MsgType.announceBlock.toU8, view := w.st.view,
                             seqNum := w.st.seqNum, signerId := w.st.id },
                   blockId := m.msg.blockId })] }) ∧
      (m.msg.info.view ≠ w.st.view →
        handleCommitF recur env m w = .err .invalidMessage w) := by
  intro recur env m w
  refine ⟨?_, ?_, ?_⟩
  · intro hv
    unfold handleCommitF broadcastPbftMessageF broadcastMessageF
    rw [if_neg (by simp [hv])]
    have hself := containsKey_addMessage_self w.log m
    by_cases h1 : (m.msg.info.seqNum == w.st.seqNum && w.st.phase == PbftPhase.committing) = true
    · rw [if_pos h1]
      by_cases h2 : ((w.log.addMessage m).hasPrePrepare m.msg.info.seqNum m.msg.info.view
          m.msg.blockId
          && decide (2 * w.st.f < ((w.log.addMessage m).getMessagesOfTypeSeqViewBlock
            MsgType.commit m.msg.info.seqNum m.msg.info.view m.msg.blockId).length)) = true
      · rw [if_pos h2]
        cases hcb : env.commitBlock m.msg.blockId with
        | none =>
          intro w' hw'
          simp [Outcome.world] at hw'
          subst hw'
          simpa [World.emit] using hself
        | some ts =>
          dsimp only
          cases hsw : (PbftState.switchPhase _ (PbftPhase.finishing false)) with
          | error e =>
            intro w' hw'
            simp [Outcome.world] at hw'
            subst hw'
            simpa [World.emit] using hself
          | ok st =>
            by_cases hsg : env.signingWorks = true
            · intro w' hw'
              simp [hsg, Outcome.world] at hw'
              subst hw'
              simpa [World.emit] using hself
            · intro w' hw'
              simp [hsg, Outcome.world] at hw'
              subst hw'
              simpa [World.emit] using hself
      · rw [if_neg h2]
        intro w' hw'
        simp [Outcome.world] at hw'
        subst hw'
        exact hself
    · rw [if_neg h1]
      intro w' hw'
      simp [Outcome.world] at hw'
      subst hw'
      exact hself
  · intro ts hv hs hp hpp hcnt hcb hsign
    unfold handleCommitF broadcastPbftMessageF broadcastMessageF
    rw [if_neg (by simp [hv])]
    rw [if_pos (show (m.msg.info.seqNum == w.st.seqNum
      && w.st.phase == PbftPhase.committing) = true by simp [hs, hp])]
    rw [if_pos (show ((w.log.addMessage m).hasPrePrepare m.msg.info.seqNum m.msg.info.view
        m.msg.blockId
        && decide (2 * w.st.f < ((w.log.addMessage m).getMessagesOfTypeSeqViewBlock
          MsgType.commit m.msg.info.seqNum m.msg.info.view m.msg.blockId).length)) = true
      by simp [hpp, hcnt])]
    rw [hcb]
    dsimp only
    simp [World.emit, PbftState.switchPhase, hp, hsign, netMsgOf, List.append_assoc]
  · intro hv
    unfold handleCommitF
    rw [if_pos hv]

theorem c2_witness :
    envC.commitBlock (mkMsg 3 0 1 2 7).msg.blockId = some 100 ∧
    handleCommit envC 5 (mkMsg 3 0 1 2 7) wC2 = .ok
      { wC2 with
        log := wC2.log.addMessage (mkMsg 3 0 1 2 7),
        st := { wC2.st with
                phase := PbftPhase.finishing false,
                commitTimeout := wC2.st.commitTimeout.stop },
        effects := wC2.effects ++
          [.commitBlock (mkMsg 3 0 1 2 7).msg.blockId,
           .pushBlockCommit (mkMsg 3 0 1 2 7).msg.blockId 100 true,
           .broadcastNet [] (.pbft
             { info := { ptype := MsgType.announceBlock.toU8, view := wC2.st.view,
                         seqNum := wC2.st.seqNum, signerId := wC2.st.id },
               blockId := (mkMsg 3 0 1 2 7).msg.blockId })] } :=
  ⟨by decide,
   (c2_handle_commit (selfSendFuel envC 5) envC (mkMsg 3 0 1 2 7) wC2).2.1 100 (by decide)
     (by decide) (by decide) (by decide) (by decide) (by decide) (by decide)⟩



/-!  Claim C1 -/

theorem toOption_eq_some {e : Except PbftError Nat} {i : Nat} :
    e.toOption = some i ↔ e = .ok i := by
  cases e <;> simp [Except.toOption]

theorem mem_insertId (acc : List Nat) (a i : Nat) :
    i ∈ insertId acc a ↔ i ∈ acc ∨ i = a := by
  unfold insertId
  by_cases h : a ∈ acc
  · simp [h]
    intro hi; subst hi; exact h
  · simp [h]

theorem mem_foldl_insertId : ∀ (l : List Nat) (acc : List Nat) (i : Nat),
    i ∈ l.foldl insertId acc ↔ i ∈ acc ∨ i ∈ l := by
  intro l
  induction l with
  | nil => intro acc i; simp
  | cons a rest ih =>
    intro acc i
    simp only [List.foldl_cons, ih, mem_insertId, List.mem_cons]
    tauto

theorem collectVoteIds_ok_forall (env : Env) (t : MsgType)
    (crit : PbftMessage → Except PbftError Unit) :
    ∀ (votes : List PbftSignedVote) (acc ids : List Nat),
      collectVoteIds env t crit acc votes = .ok ids →
      ∀ v ∈ votes, ∃ i, verifyVote env v t crit = .ok i := by
  intro votes
  induction votes with
  | nil => intro acc ids _ v hv; cases hv
  | cons a rest ih =>
    intro acc ids h v hv
    unfold collectVoteIds at h
    cases hva : verifyVote env a t crit with
    | error e => rw [hva] at h; cases h
    | ok j =>
      rw [hva] at h
      rcases List.mem_cons.mp hv with rfl | hv'
      · exact ⟨j, hva⟩
      · exact ih _ _ h v hv'

theorem collectVoteIds_all_ok (env : Env) (t : MsgType)
    (crit : PbftMessage → Except PbftError Unit) :
    ∀ (votes : List PbftSignedVote) (acc : List Nat),
      (∀ v ∈ votes, ∃ i, verifyVote env v t crit = .ok i) →
      collectVoteIds env t crit acc votes =
        .ok ((votes.filterMap (fun v => (verifyVote env v t crit).toOption)).foldl
          insertId acc) := by
  intro votes
  induction votes with
  | nil => intro acc _; simp [collectVoteIds]
  | cons a rest ih =>
    intro acc hall
    obtain ⟨i, hi⟩ := hall a (by simp)
    unfold collectVoteIds
    rw [hi]
    dsimp only
    rw [ih (insertId acc i) (fun v hv => hall v (by simp [hv]))]
    simp [hi, Except.toOption]

/-- C1: with the membership query at `seal.info.seq_num - 1` yielding
`members`, `verify_consensus_seal` accepts a seal exactly when every
commit vote passes vote verification with expected type Commit and the
criteria that the vote's block id, view and seq_num equal the seal's, the
seal's signer is contained in `members`, every recovered voter id is a
member distinct from the seal's signer, and there are at least 2f
distinct recovered voter ids; the second conjunct characterizes the
criteria predicate itself. -/
theorem c1_verify_consensus_seal_iff (env : Env) (st : PbftState) (sl : PbftSeal) (previousId : Nat)
    (members : List Nat) (hm : env.membersAt (sl.info.seqNum - 1) = .ok members) :
    (verifyConsensusSeal env st sl previousId = .ok () ↔
      ((∀ v ∈ sl.commitVotes, ∃ i, verifyVote env v .commit (sealVoteCriteria sl) = .ok i) ∧
       members.contains sl.info.signerId = true ∧
       (∀ i, (∃ v ∈ sl.commitVotes, verifyVote env v .commit (sealVoteCriteria sl) = .ok i) →
          members.contains i = true ∧ i ≠ sl.info.signerId) ∧
       2 * st.f ≤ distinctCount
         (sl.commitVotes.filterMap
           (fun v => (verifyVote env v .commit (sealVoteCriteria sl)).toOption)))) ∧
    (∀ msg, sealVoteCriteria sl msg = .ok () ↔
      (msg.blockId = sl.blockId ∧ msg.info.view = sl.info.view ∧
       msg.info.seqNum = sl.info.seqNum)) := by
  have hmemrec : ∀ i, i ∈ sl.commitVotes.filterMap
      (fun v => (verifyVote env v .commit (sealVoteCriteria sl)).toOption) ↔
      ∃ v ∈ sl.commitVotes, verifyVote env v .commit (sealVoteCriteria sl) = .ok i := by
    intro i
    simp only [List.mem_filterMap, toOption_eq_some]
  constructor
  · constructor
    · intro h
      unfold verifyConsensusSeal at h
      cases hc : collectVoteIds env .commit (sealVoteCriteria sl) [] sl.commitVotes with
      | error e => rw [hc] at h; cases h
      | ok ids =>
        rw [hc, hm] at h
        dsimp only at h
        have hall := collectVoteIds_ok_forall env .commit (sealVoteCriteria sl)
          sl.commitVotes [] ids hc
        have hids : ids = (sl.commitVotes.filterMap
            (fun v => (verifyVote env v .commit (sealVoteCriteria sl)).toOption)).foldl
              insertId [] := by
          have h2 := collectVoteIds_all_ok env .commit (sealVoteCriteria sl)
            sl.commitVotes [] hall
          rw [hc] at h2
          exact Except.ok.inj h2
        by_cases hb : members.contains sl.info.signerId = true
        · rw [if_neg (not_not_intro hb)] at h
          by_cases hsubs : ids.all
              (fun i => (members.filter (fun pid => pid ≠ sl.info.signerId)).contains i) = true
          · rw [if_neg (not_not_intro hsubs)] at h
            by_cases hlt : ids.length < 2 * st.f
            · rw [if_pos hlt] at h; cases h
            · refine ⟨hall, hb, ?_, ?_⟩
              · intro i hex
                have hirec := (hmemrec i).mpr hex
                have hiids : i ∈ ids := by
                  rw [hids, mem_foldl_insertId]
                  exact Or.inr hirec
                have hpc := (List.all_eq_true.mp hsubs) i hiids
                have h3 : i ∈ members ∧ i ≠ sl.info.signerId := by simpa using hpc
                exact ⟨by simpa using h3.1, h3.2⟩
              · have : distinctCount (sl.commitVotes.filterMap
                    (fun v => (verifyVote env v .commit (sealVoteCriteria sl)).toOption))
                    = ids.length := by rw [distinctCount, hids]
                omega
          · rw [if_pos hsubs] at h; cases h
        · rw [if_pos hb] at h; cases h
    · rintro ⟨hall, hb, hsub, hlen⟩
      unfold verifyConsensusSeal
      rw [collectVoteIds_all_ok env .commit (sealVoteCriteria sl) sl.commitVotes [] hall, hm]
      dsimp only
      rw [if_neg (not_not_intro hb)]
      rw [if_neg ?hs]
      case hs =>
        simp only [not_not]
        refine List.all_eq_true.mpr ?_
        intro i hi
        rw [mem_foldl_insertId] at hi
        rcases hi with hi | hi
        · cases hi
        · obtain ⟨hcm, hne⟩ := hsub i ((hmemrec i).mp hi)
          simp [List.mem_filter, hne]
          simpa using hcm
      rw [if_neg ?hl]
      case hl =>
        have : distinctCount (sl.commitVotes.filterMap
            (fun v => (verifyVote env v .commit (sealVoteCriteria sl)).toOption))
            = ((sl.commitVotes.filterMap
              (fun v => (verifyVote env v .commit (sealVoteCriteria sl)).toOption)).foldl
                insertId []).length := rfl
        omega
  · intro msg
    unfold sealVoteCriteria
    by_cases h1 : msg.blockId = sl.blockId
    · by_cases h2 : msg.info.view = sl.info.view
      · by_cases h3 : msg.info.seqNum = sl.info.seqNum
        · simp [h1, h2, h3]
        · simp [h1, h2, h3]
      · simp [h1, h2]
    · simp [h1]

theorem c1_witness :
    envC.membersAt (sealC.info.seqNum - 1) = .ok [1, 2, 3, 4] ∧
    ((verifyConsensusSeal envC stC sealC 0 = .ok () ↔
      ((∀ v ∈ sealC.commitVotes, ∃ i,
          verifyVote envC v .commit (sealVoteCriteria sealC) = .ok i) ∧
       [1, 2, 3, 4].contains sealC.info.signerId = true ∧
       (∀ i, (∃ v ∈ sealC.commitVotes,
            verifyVote envC v .commit (sealVoteCriteria sealC) = .ok i) →
          [1, 2, 3, 4].contains i = true ∧ i ≠ sealC.info.signerId) ∧
       2 * stC.f ≤ distinctCount
         (sealC.commitVotes.filterMap
           (fun v => (verifyVote envC v .commit (sealVoteCriteria sealC)).toOption)))) ∧
    (∀ msg, sealVoteCriteria sealC msg = .ok () ↔
      (msg.blockId = sealC.blockId ∧ msg.info.view = sealC.info.view ∧
       msg.info.seqNum = sealC.info.seqNum))) :=
  ⟨rfl, c1_verify_consensus_seal_iff envC stC sealC 0 [1, 2, 3, 4] rfl⟩

/-!  Claim C4 -/

/-- A seal for block 55 at (view 0, seq 1) signed by 1, one parseable vote. -/
def sealC4 : PbftSeal :=
  { info := { ptype := 7, view := 0, seqNum := 1, signerId := 1 }, blockId := 55,
    commitVotes := [mkVote 2 0 1 55] }

/-- The vote of `sealC4` as a logged message. -/
def sealC4msg : LogMsg :=
  { msg := { info := { ptype := 3, view := 0, seqNum := 1, signerId := 2 }, blockId := 55 },
    fromSelf := false, headerDec := some { messageType := 3, contentHash := 7, signerId := 2 },
    sigRecover := some 2 }

/-- The result of `catchup envC sealC4 false wC`. -/
def wC4res : World :=
  { st := { stC with phase := .finishing false },
    log := ⟨[sealC4msg], [], []⟩, announce := [], announceCap := 10,
    effects := [.commitBlock 55, .pushBlockCommit 55 50 false, .saveSeal sealC4] }

/-- The result of `catchup envLatest sealC4 false wC`. -/
def wC4resLatest : World :=
  { st := { stC with phase := .finishing false },
    log := ⟨[sealC4msg], [], []⟩, announce := [], announceCap := 10,
    effects := [.pushBlockCommit 55 50 false, .saveSeal sealC4] }

/-- C4 counterexample: when the client reports a latest header, `catchup`
succeeds WITHOUT invoking the execution engine's `commit_block` — refuting
the claim that every successful catchup commits the seal's block through
`commit_block`. -/
theorem c4_counterexample :
    catchup envLatest sealC4 false wC = .ok wC4resLatest ∧
    Effect.commitBlock sealC4.blockId ∉ wC4resLatest.effects := by
  constructor
  · decide
  · decide

/-- C4 amended: every successful `catchup(state, seal, catchup_again)`
parses the seal's commit votes and appends them to the log, sets the view
to the first vote's view, stops the idle timeout, sets the phase to
Finishing(catchup_again), pushes a BlockCommit event with the committed
block's stored-header timestamp, and persists the seal — but the block is
committed through the execution engine's `commit_block` only when the
client store reports no latest header; with a latest header present the
call succeeds without any `commit_block` invocation. -/
theorem c4_catchup_success (env : Env) (sl : PbftSeal) (b : Bool) (w w' : World)
    (h : catchup env sl b w = .ok w') :
    ∃ messages m0,
      sl.commitVotes.mapM fromSignedVote = .ok messages ∧
      messages.head? = some m0 ∧
      (∀ m ∈ messages, w'.log.containsKey m = true) ∧
      w'.st.view = m0.msg.info.view ∧
      w'.st.idleTimeout.active = false ∧
      w'.st.phase = .finishing b ∧
      ∃ ts, env.headerById sl.blockId = some ts ∧
        w'.effects = w.effects ++
          (match env.latestHeader with
           | some _ => [Effect.pushBlockCommit sl.blockId ts false, .saveSeal sl]
           | none => [Effect.commitBlock sl.blockId, .pushBlockCommit sl.blockId ts false,
                      .saveSeal sl]) ∧
        (env.latestHeader = none → env.commitBlock sl.blockId ≠ none) := by
  unfold catchup at h
  cases hmap : sl.commitVotes.mapM fromSignedVote with
  | error e => rw [hmap] at h; dsimp only at h; exact absurd h (by simp)
  | ok messages =>
    rw [hmap] at h
    dsimp only at h
    cases hhd : messages.head? with
    | none => rw [hhd] at h; dsimp only at h; exact absurd h (by simp)
    | some m0 =>
      rw [hhd] at h
      dsimp only at h
      refine ⟨messages, m0, rfl, hhd, ?_⟩
      cases hlh : env.latestHeader with
      | some p =>
        rw [hlh] at h
        dsimp only [Outcome.andThen] at h
        cases hhb : env.headerById sl.blockId with
        | none => rw [hhb] at h; exact absurd h (by simp)
        | some ts =>
          rw [hhb] at h
          dsimp only at h
          unfold saveSealW at h
          by_cases hsv : env.saveSealOk = true
          · simp only [hsv, if_true, World.emit] at h
            simp only [Outcome.ok.injEq] at h
            subst h
            refine ⟨?_, ?_, ?_, ?_, ts, rfl, ?_, ?_⟩
            · intro m hm
              exact containsKey_foldl_addMessage_mem messages w.log m hm
            · by_cases hv : m0.msg.info.view = w.st.view
            <;> simp [hv]
            · simp [Timeout.stop]
            · rfl
            · simp [List.append_assoc]
            · simp
          · simp [hsv] at h
      | none =>
        rw [hlh] at h
        dsimp only at h
        cases hcb : env.commitBlock sl.blockId with
        | none => rw [hcb] at h; exact absurd h (by simp [Outcome.andThen])
        | some t =>
          rw [hcb] at h
          dsimp only [Outcome.andThen] at h
          cases hhb : env.headerById sl.blockId with
          | none => rw [hhb] at h; exact absurd h (by simp)
          | some ts =>
            rw [hhb] at h
            dsimp only at h
            unfold saveSealW at h
            by_cases hsv : env.saveSealOk = true
            · simp only [hsv, if_true, World.emit] at h
              simp only [Outcome.ok.injEq] at h
              subst h
              refine ⟨?_, ?_, ?_, ?_, ts, rfl, ?_, ?_⟩
              · intro m hm
                exact containsKey_foldl_addMessage_mem messages w.log m hm
              · by_cases hv : m0.msg.info.view = w.st.view
              <;> simp [hv]
              · simp [Timeout.stop]
              · rfl
              · simp [List.append_assoc]
              · simp [hcb]
            · simp [hsv] at h

theorem c4_witness :
    catchup envC sealC4 false wC = .ok wC4res ∧
    ∃ messages m0,
      sealC4.commitVotes.mapM fromSignedVote = .ok messages ∧
      messages.head? = some m0 ∧
      (∀ m ∈ messages, wC4res.log.containsKey m = true) ∧
      wC4res.st.view = m0.msg.info.view ∧
      wC4res.st.idleTimeout.active = false ∧
      wC4res.st.phase = .finishing false ∧
      ∃ ts, envC.headerById sealC4.blockId = some ts ∧
        wC4res.effects = wC.effects ++
          (match envC.latestHeader with
           | some _ => [Effect.pushBlockCommit sealC4.blockId ts false, .saveSeal sealC4]
           | none => [Effect.commitBlock sealC4.blockId,
                      .pushBlockCommit sealC4.blockId ts false, .saveSeal sealC4]) ∧
        (envC.latestHeader = none → envC.commitBlock sealC4.blockId ≠ none) :=
  ⟨by decide, c4_catchup_success envC sealC4 false wC wC4res (by decide)⟩

/-!  Claim C7 -/

/-- A block numbered 1 on parent 0 with a zero payload id. -/
def blockC7 : ClayerBlock :=
  { info := ⟨8, 0, 1, 2⟩, blockNum := 1, blockId := 5, parentId := 0, timestamp := 0,
    sealBytes := .empty, payloadId := 0 }

/-- The genesis block fixture, validated in the log. -/
def blockGenesis : ClayerBlock :=
  { info := ⟨8, 0, 0, 0⟩, blockNum := 0, blockId := 0, parentId := 0, timestamp := 0,
    sealBytes := .empty, payloadId := 0 }

/-- `wC` with the genesis block validated in the log. -/
def wC7 : World := { wC with log := wC.log.addValidatedBlock blockGenesis }

/-- C7 counterexample: a block that passes the sequence-number, parent and
parent-number checks but has a zero payload id is rejected with an error,
yet it HAS been inserted into the log as an unvalidated block — refuting
the claim that insertion happens only after all four rejection checks. -/
theorem c7_counterexample :
    onBlockNew envC 5 blockC7 wC7 =
      .err .internalError { wC7 with log := wC7.log.addUnvalidatedBlock blockC7 } ∧
    ((wC7.log.addUnvalidatedBlock blockC7).getUnvalidatedBlockWithId blockC7.blockId).isSome
      = true := by
  constructor
  · decide
  · decide

/-- C7 amended: when a block passes the sequence-number check, the
parent-presence check and the parent-number check but has a zero payload
id, `on_block_new` returns an InternalError — but only after inserting the
block into the message log as an unvalidated block; the insertion precedes
the payload-id check rather than following it. -/
theorem c7_on_block_new_zero_payload (recur : Recur) (env : Env) (block : ClayerBlock)
    (w : World) (prev : ClayerBlock)
    (h1 : ¬ block.blockNum < w.st.seqNum)
    (h2 : (match w.log.getBlockWithId block.parentId with
           | some p => some p
           | none => w.log.getUnvalidatedBlockWithId block.parentId) = some prev)
    (h3 : prev.blockNum = block.blockNum - 1)
    (h4 : block.payloadId = 0) :
    onBlockNewF recur env block w =
      .err .internalError { w with log := w.log.addUnvalidatedBlock block } := by
  unfold onBlockNewF
  simp [h1, h2, h3, h4]

theorem c7_witness :
    ¬ blockC7.blockNum < wC7.st.seqNum ∧
    onBlockNew envC 5 blockC7 wC7 =
      .err .internalError { wC7 with log := wC7.log.addUnvalidatedBlock blockC7 } :=
  ⟨by decide,
   c7_on_block_new_zero_payload (selfSendFuel envC 5) envC blockC7 wC7 blockGenesis
     (by decide) (by decide) (by decide) (by decide)⟩

/-!  Claim C8 witness -/

theorem c8_witness :
    catchup envC PbftSeal.default0 true wC = .panic ∧
    verifyConsensusSealFromBlock envC wC
      { info := ⟨8, 0, 1, 2⟩, blockNum := 1, blockId := 5, parentId := 0, timestamp := 0,
        sealBytes := .empty, payloadId := 3 } = .ok PbftSeal.default0 ∧
    tryHandlingBlock envC 5
      { info := ⟨8, 0, 1, 2⟩, blockNum := 1, blockId := 5, parentId := 0, timestamp := 0,
        sealBytes := .empty, payloadId := 3 }
      { wC with st := { wC.st with seqNum := 0 } } = .panic :=
  ⟨c8_catchup_empty_votes_panics.1 envC PbftSeal.default0 true wC rfl,
   c8_catchup_empty_votes_panics.2.1 envC wC _ (by decide),
   c8_catchup_empty_votes_panics.2.2 (selfSendFuel envC 5) envC _ _ (by decide) (by decide)
     (by decide)⟩

/-!  Claim C6: `handle_view_change` drop condition.  The claim says a
ViewChange for view V is dropped when V is at most the current view or the
node is already in ViewChanging(V2) with V at most V2; the source
(consensus.rs lines 600-604) uses the STRICT comparison `msg_view < v` for
the second disjunct, so V = V2 is NOT dropped. -/

/-- `handle_new_view` never touches the message log. -/
theorem handleNewViewW_log (env : Env) (nv : PbftNewView) (w : World) :
    ∀ w', (handleNewViewW env nv w).world = some w' → w'.log = w.log := by
  intro w' h
  unfold handleNewViewW at h
  split at h
  · simp [Outcome.world] at h; subst h; rfl
  · dsimp only at h
    split at h <;> split at h <;>
      first
        | (split at h <;> (simp [Outcome.world] at h; subst h; rfl))
        | (simp [Outcome.world] at h; subst h; rfl)

/-- Self-dispatching a NewView through `on_peer_message` leaves the log unchanged, at every fuel. -/
theorem newView_dispatch_log (env : Env) :
    ∀ (fuel p : Nat) (nv : PbftNewView) (b : Bool) (w w' : World),
      (selfSendFuel env fuel p (.newView nv b) w).world = some w' → w'.log = w.log := by
  intro fuel p nv b w w' h
  cases fuel with
  | zero =>
    simp only [selfSendFuel, Outcome.world] at h
    cases h; rfl
  | succ n =>
    unfold selfSendFuel onPeerMessageF at h
    dsimp only [ParsedMessage.info, ParsedMessage.asLogMsg, ParsedMessage.asNewView,
      ParsedMessage.asSeal, ParsedMessage.asBlockNew, ParsedMessage.asNewValidator] at h
    split at h
    · simp [Outcome.world] at h; subst h; rfl
    · split at h
      · split at h <;>
          first
            | (exact handleNewViewW_log env nv _ w' h)
            | (split at h <;> (simp [Outcome.world] at h <;> (subst h; rfl)))
            | (simp [Outcome.world] at h <;> (subst h; rfl))
      · split at h
        · simp [Outcome.world] at h; subst h; rfl
        · split at h <;>
            first
              | (exact handleNewViewW_log env nv _ w' h)
              | (split at h <;> (simp [Outcome.world] at h <;> (subst h; rfl)))
              | (simp [Outcome.world] at h <;> (subst h; rfl))





/-- Broadcasting a NewView (which self-dispatches it) leaves the log unchanged. -/
theorem broadcastMessageF_newView_log (env : Env) (recur : Recur)
    (hrecNV : ∀ (p : Nat) (nv : PbftNewView) (b : Bool) (w w' : World),
      (recur p (.newView nv b) w).world = some w' → w'.log = w.log) :
    ∀ (nv : PbftNewView) (b toAll toSelf : Bool) (w w' : World),
      (broadcastMessageF recur env (.newView nv b) toAll toSelf w).world = some w' →
      w'.log = w.log := by
  intro nv b toAll toSelf w w' h
  unfold broadcastMessageF at h
  split at h
  · simp only [Outcome.world, Option.some.injEq] at h
    subst h; rfl
  · split at h
    · simp only [Outcome.world, Option.some.injEq] at h
      subst h; rfl
    · dsimp only at h
      split at h
      · have hl := hrecNV _ _ _ _ w' h
        rw [hl]
        rfl
      · simp only [Outcome.world, Option.some.injEq] at h
        subst h; rfl

/-- `start_view_change` preserves log membership, given that self-dispatching the broadcast ViewChange does. -/
theorem startViewChangeF_contains (env : Env) (recur : Recur)
    (hrecVC : ∀ (p : Nat) (m2 : LogMsg) (w : World) (m : LogMsg),
      MsgType.ofU8 m2.msg.info.ptype = .viewChange →
      w.log.containsKey m = true →
      ∀ w', (recur p (.message m2) w).world = some w' → w'.log.containsKey m = true) :
    ∀ (view : Nat) (w w' : World), (startViewChangeF recur env view w).world = some w' →
      ∀ m, w.log.containsKey m = true → w'.log.containsKey m = true := by
  intro view w w' h m hm
  unfold startViewChangeF at h
  split at h
  · simp only [Outcome.world, Option.some.injEq] at h
    subst h; exact hm
  · unfold broadcastPbftMessageF broadcastMessageF at h
    dsimp only at h
    rw [show (MsgType.viewChange == MsgType.announceBlock) = false from rfl,
        show (MsgType.viewChange != MsgType.sealRequest) = true from rfl] at h
    simp only [Bool.false_eq_true, if_false, if_true] at h
    split at h
    · simp only [Outcome.world, Option.some.injEq] at h
      subst h; exact hm
    · refine hrecVC _ _ _ m ?_ ?_ w' h
      · rfl
      · exact hm

/-- `handle_view_change` preserves log membership and, when the drop condition fails, records the incoming message, given recursion hypotheses for ViewChange and NewView self-dispatch. -/
theorem handleViewChangeF_contains (env : Env) (recur : Recur)
    (hrecVC : ∀ (p : Nat) (m2 : LogMsg) (w : World) (m : LogMsg),
      MsgType.ofU8 m2.msg.info.ptype = .viewChange →
      w.log.containsKey m = true →
      ∀ w', (recur p (.message m2) w).world = some w' → w'.log.containsKey m = true)
    (hrecNV : ∀ (p : Nat) (nv : PbftNewView) (b : Bool) (w w' : World),
      (recur p (.newView nv b) w).world = some w' → w'.log = w.log) :
    ∀ (m' : LogMsg) (w : World) (w' : World),
      (handleViewChangeF recur env m' w).world = some w' →
      (∀ m, w.log.containsKey m = true → w'.log.containsKey m = true) ∧
      (¬ (m'.msg.info.view ≤ w.st.view ∨
          (∃ v, w.st.mode = .viewChanging v ∧ m'.msg.info.view < v)) →
        w'.log.containsKey m' = true) := by
  intro m' w w' h
  unfold handleViewChangeF at h
  cases hmode : w.st.mode with
  | normal =>
    rw [hmode] at h
    dsimp only at h
    split at h
    · rename_i hdrop
      simp only [Bool.or_eq_true, decide_eq_true_eq] at hdrop
      simp only [Outcome.world, Option.some.injEq] at h
      subst h
      refine ⟨fun m hm => hm, fun hn => absurd ?_ hn⟩
      rcases hdrop with h1 | h1
      · exact Or.inl h1
      · cases h1
    · split at h
      · exact ⟨fun m hm =>
          startViewChangeF_contains env recur hrecVC _ _ _ h m
            (containsKey_addMessage_mono w.log m m' hm),
          fun _ => startViewChangeF_contains env recur hrecVC _ _ _ h m'
            (containsKey_addMessage_self w.log m')⟩
      · split at h <;> split at h <;>
          first
            | (have hl := broadcastMessageF_newView_log env recur hrecNV _ _ _ _ _ w' h
               rw [hl]
               exact ⟨fun m hm => containsKey_addMessage_mono w.log m m' hm,
                 fun _ => containsKey_addMessage_self w.log m'⟩)
            | (simp only [Outcome.world, Option.some.injEq] at h
               subst h
               exact ⟨fun m hm => containsKey_addMessage_mono w.log m m' hm,
                 fun _ => containsKey_addMessage_self w.log m'⟩)
  | viewChanging v =>
    rw [hmode] at h
    dsimp only at h
    split at h
    · rename_i hdrop
      simp only [Bool.or_eq_true, decide_eq_true_eq] at hdrop
      simp only [Outcome.world, Option.some.injEq] at h
      subst h
      refine ⟨fun m hm => hm, fun hn => absurd ?_ hn⟩
      rcases hdrop with h1 | h1
      · exact Or.inl h1
      · exact Or.inr ⟨v, rfl, h1⟩
    · split at h
      · exact ⟨fun m hm =>
          startViewChangeF_contains env recur hrecVC _ _ _ h m
            (containsKey_addMessage_mono w.log m m' hm),
          fun _ => startViewChangeF_contains env recur hrecVC _ _ _ h m'
            (containsKey_addMessage_self w.log m')⟩
      · split at h <;> split at h <;>
          first
            | (have hl := broadcastMessageF_newView_log env recur hrecNV _ _ _ _ _ w' h
               rw [hl]
               exact ⟨fun m hm => containsKey_addMessage_mono w.log m m' hm,
                 fun _ => containsKey_addMessage_self w.log m'⟩)
            | (simp only [Outcome.world, Option.some.injEq] at h
               subst h
               exact ⟨fun m hm => containsKey_addMessage_mono w.log m m' hm,
                 fun _ => containsKey_addMessage_self w.log m'⟩)


/-- Self-dispatching a ViewChange through `on_peer_message` preserves log membership, at every fuel. -/
theorem viewChange_dispatch_contains (env : Env) :
    ∀ fuel : Nat, ∀ (p : Nat) (m2 : LogMsg) (w : World) (m : LogMsg),
      MsgType.ofU8 m2.msg.info.ptype = .viewChange →
      w.log.containsKey m = true →
      ∀ w', (selfSendFuel env fuel p (.message m2) w).world = some w' →
        w'.log.containsKey m = true := by
  intro fuel
  induction fuel with
  | zero =>
    intro p m2 w m ht hm w' h
    simp only [selfSendFuel, Outcome.world, Option.some.injEq] at h
    subst h; exact hm
  | succ n ih =>
    intro p m2 w m ht hm w' h
    unfold selfSendFuel onPeerMessageF at h
    dsimp only [ParsedMessage.info, ParsedMessage.asLogMsg] at h
    rw [ht] at h
    dsimp only at h
    split at h
    · simp only [Outcome.world, Option.some.injEq] at h
      subst h; exact hm
    · split at h
      · simp only [Outcome.world, Option.some.injEq] at h
        subst h; exact hm
      · split at h
        · simp only [Outcome.world, Option.some.injEq] at h
          subst h; exact hm
        · exact (handleViewChangeF_contains env (selfSendFuel env n) ih
            (newView_dispatch_log env n) m2 w w' h).1 m hm


/-- `wC` already in view-change mode towards view 1. -/
def wC6 : World := { wC with st := { stC with mode := .viewChanging 1 } }

/-- C6 counterexample: a ViewChange for view 1, received while the node is
already in ViewChanging(1) - so V = V2, which the claim says is dropped -
is not dropped: the strict `msg_view < v` lets it through and the message
is appended to the log (the world changes). -/
theorem c6_counterexample :
    wC6.st.mode = PbftMode.viewChanging 1 ∧
    (mkMsg 5 1 0 2 0).msg.info.view = 1 ∧
    handleViewChange envC 1 (mkMsg 5 1 0 2 0) wC6 =
      .ok { wC6 with log := wC6.log.addMessage (mkMsg 5 1 0 2 0) } ∧
    (wC6.log.addMessage (mkMsg 5 1 0 2 0)).containsKey (mkMsg 5 1 0 2 0) = true ∧
    wC6.log.containsKey (mkMsg 5 1 0 2 0) = false :=
  ⟨rfl, rfl, by decide, by decide, by decide⟩

/-- C6 (amended): `handle_view_change` returns Ok with the world unchanged
exactly when the message view is at most the current view, or the node is
in ViewChanging(v) with the message view STRICTLY below v; otherwise every
successful run leaves the incoming ViewChange recorded in the log. -/
theorem c6_handle_view_change (env : Env) (fuel : Nat) (m : LogMsg) (w : World) :
    ((m.msg.info.view ≤ w.st.view ∨
      (∃ v, w.st.mode = .viewChanging v ∧ m.msg.info.view < v)) →
      handleViewChange env fuel m w = .ok w) ∧
    (¬ (m.msg.info.view ≤ w.st.view ∨
        (∃ v, w.st.mode = .viewChanging v ∧ m.msg.info.view < v)) →
      ∀ w', (handleViewChange env fuel m w).world = some w' →
        w'.log.containsKey m = true) := by
  constructor
  · intro hd
    unfold handleViewChange handleViewChangeF
    cases hmode : w.st.mode with
    | normal =>
      dsimp only
      rw [if_pos (show (decide (m.msg.info.view ≤ w.st.view) || false) = true by
        rcases hd with hle | ⟨v, habs, _⟩
        · simp [hle]
        · rw [hmode] at habs; cases habs)]
    | viewChanging v =>
      dsimp only
      rw [if_pos (show (decide (m.msg.info.view ≤ w.st.view)
          || decide (m.msg.info.view < v)) = true by
        rcases hd with hle | ⟨v2, hv2, hlt⟩
        · simp [hle]
        · rw [hmode] at hv2
          cases hv2
          simp [hlt])]
  · intro hnd w' h
    exact (handleViewChangeF_contains env (selfSendFuel env fuel)
      (viewChange_dispatch_contains env fuel) (newView_dispatch_log env fuel) m w w' h).2 hnd

/-- Witness for C6: instantiates the drop direction at a ViewChange for
view 0 against `wC` (current view 0). -/
theorem c6_witness :
    ((mkMsg 5 0 0 2 0).msg.info.view ≤ wC.st.view ∨
     (∃ v, wC.st.mode = PbftMode.viewChanging v ∧ (mkMsg 5 0 0 2 0).msg.info.view < v)) ∧
    handleViewChange envC 1 (mkMsg 5 0 0 2 0) wC = .ok wC :=
  ⟨Or.inl (by decide),
   (c6_handle_view_change envC 1 (mkMsg 5 0 0 2 0) wC).1 (Or.inl (by decide))⟩

/-!  Claim C3: primary equivocation handling.  The claim says the handler
always starts a view change to view+1 and then returns FaultyPrimary; the
source guards the Prepare-from-primary case behind the view check, lets
start_view_change errors replace FaultyPrimary via `?`, and start_view_change
is a no-op when a view change to view+1 or later is already in progress. -/

/-- `handle_new_view` only appends to the effect trace. -/
theorem handleNewViewW_effects (env : Env) (nv : PbftNewView) (w : World) (e : Effect)
    (he : e ∈ w.effects) :
    ∀ w', (handleNewViewW env nv w).world = some w' → e ∈ w'.effects := by
  intro w' h
  unfold handleNewViewW at h
  split at h
  · simp [Outcome.world] at h; subst h; exact he
  · dsimp only at h
    split at h <;> split at h <;>
      first
        | (split at h <;> (simp only [Outcome.world, Option.some.injEq] at h <;> (subst h; simp [World.emit, List.mem_append, he])))
        | (simp only [Outcome.world, Option.some.injEq] at h; subst h; simp [World.emit, List.mem_append, he])

/-- Self-dispatching a NewView through `on_peer_message` only appends to the
effect trace, at every fuel. -/
theorem newView_dispatch_effects (env : Env) :
    ∀ (fuel p : Nat) (nv : PbftNewView) (b : Bool) (w w' : World) (e : Effect),
      e ∈ w.effects →
      (selfSendFuel env fuel p (.newView nv b) w).world = some w' → e ∈ w'.effects := by
  intro fuel p nv b w w' e he h
  cases fuel with
  | zero =>
    simp only [selfSendFuel, Outcome.world] at h
    cases h; exact he
  | succ n =>
    unfold selfSendFuel onPeerMessageF at h
    dsimp only [ParsedMessage.info, ParsedMessage.asLogMsg, ParsedMessage.asNewView,
      ParsedMessage.asSeal, ParsedMessage.asBlockNew, ParsedMessage.asNewValidator] at h
    split at h
    · simp [Outcome.world] at h; subst h; exact he
    · split at h
      · split at h <;>
          first
            | (exact handleNewViewW_effects env nv _ e he w' h)
            | (split at h <;> (simp [Outcome.world] at h <;> (subst h; exact he)))
            | (simp [Outcome.world] at h <;> (subst h; exact he))
      · split at h
        · simp [Outcome.world] at h; subst h; exact he
        · split at h <;>
            first
              | (exact handleNewViewW_effects env nv _ e he w' h)
              | (split at h <;> (simp [Outcome.world] at h <;> (subst h; exact he)))
              | (simp [Outcome.world] at h <;> (subst h; exact he))

/-- `broadcast_message` only appends to the effect trace, given that the
self-dispatch of the broadcast message does. -/
theorem broadcastMessageF_effects (env : Env) (recur : Recur) (pm : ParsedMessage)
    (hrec : ∀ (p : Nat) (w w' : World) (e : Effect), e ∈ w.effects →
      (recur p pm w).world = some w' → e ∈ w'.effects) :
    ∀ (toAll toSelf : Bool) (w w' : World) (e : Effect), e ∈ w.effects →
      (broadcastMessageF recur env pm toAll toSelf w).world = some w' → e ∈ w'.effects := by
  intro toAll toSelf w w' e he h
  unfold broadcastMessageF at h
  split at h
  · simp [Outcome.world] at h; subst h; exact he
  · split at h
    · simp [Outcome.world] at h; subst h
      simp [World.emit, List.mem_append, he]
    · dsimp only at h
      split at h
      · exact hrec _ _ w' e (by simp [World.emit, List.mem_append, he]) h
      · simp [Outcome.world] at h; subst h
        simp [World.emit, List.mem_append, he]

/-- `start_view_change` only appends to the effect trace, given that the
self-dispatch of the broadcast ViewChange does. -/
theorem startViewChangeF_effects (env : Env) (recur : Recur)
    (hrecVC : ∀ (p : Nat) (m2 : LogMsg), MsgType.ofU8 m2.msg.info.ptype = .viewChange →
      ∀ (w w' : World) (e : Effect), e ∈ w.effects →
      (recur p (.message m2) w).world = some w' → e ∈ w'.effects) :
    ∀ (view : Nat) (w w' : World) (e : Effect), e ∈ w.effects →
      (startViewChangeF recur env view w).world = some w' → e ∈ w'.effects := by
  intro view w w' e he h
  unfold startViewChangeF at h
  split at h
  · simp [Outcome.world] at h; subst h; exact he
  · unfold broadcastPbftMessageF broadcastMessageF at h
    dsimp only at h
    rw [show (MsgType.viewChange == MsgType.announceBlock) = false from rfl,
        show (MsgType.viewChange != MsgType.sealRequest) = true from rfl] at h
    simp only [Bool.false_eq_true, if_false, if_true] at h
    split at h
    · simp [Outcome.world] at h; subst h; exact he
    · refine hrecVC _ _ ?_ _ w' e ?_ h
      · rfl
      · simp [World.emit, List.mem_append, he]

/-- `handle_view_change` only appends to the effect trace, given recursion
hypotheses for ViewChange and NewView self-dispatch. -/
theorem handleViewChangeF_effects (env : Env) (recur : Recur)
    (hrecVC : ∀ (p : Nat) (m2 : LogMsg), MsgType.ofU8 m2.msg.info.ptype = .viewChange →
      ∀ (w w' : World) (e : Effect), e ∈ w.effects →
      (recur p (.message m2) w).world = some w' → e ∈ w'.effects)
    (hrecNV : ∀ (p : Nat) (nv : PbftNewView) (b : Bool) (w w' : World) (e : Effect),
      e ∈ w.effects →
      (recur p (.newView nv b) w).world = some w' → e ∈ w'.effects) :
    ∀ (m' : LogMsg) (w w' : World) (e : Effect), e ∈ w.effects →
      (handleViewChangeF recur env m' w).world = some w' → e ∈ w'.effects := by
  intro m' w w' e he h
  unfold handleViewChangeF at h
  cases hmode : w.st.mode with
  | normal =>
    rw [hmode] at h
    dsimp only at h
    split at h
    · simp only [Outcome.world, Option.some.injEq] at h
      subst h; exact he
    · split at h
      · refine startViewChangeF_effects env recur hrecVC _ _ w' e ?_ h
        exact he
      · split at h <;> split at h <;>
          first
            | (refine broadcastMessageF_effects env recur _
                 (fun p w w' e he h => hrecNV p _ _ w w' e he h) _ _ _ w' e ?_ h
               exact he)
            | (simp only [Outcome.world, Option.some.injEq] at h
               subst h; exact he)
  | viewChanging v =>
    rw [hmode] at h
    dsimp only at h
    split at h
    · simp only [Outcome.world, Option.some.injEq] at h
      subst h; exact he
    · split at h
      · refine startViewChangeF_effects env recur hrecVC _ _ w' e ?_ h
        exact he
      · split at h <;> split at h <;>
          first
            | (refine broadcastMessageF_effects env recur _
                 (fun p w w' e he h => hrecNV p _ _ w w' e he h) _ _ _ w' e ?_ h
               exact he)
            | (simp only [Outcome.world, Option.some.injEq] at h
               subst h; exact he)

/-- Self-dispatching a ViewChange through `on_peer_message` only appends to
the effect trace, at every fuel. -/
theorem viewChange_dispatch_effects (env : Env) :
    ∀ fuel : Nat, ∀ (p : Nat) (m2 : LogMsg), MsgType.ofU8 m2.msg.info.ptype = .viewChange →
      ∀ (w w' : World) (e : Effect), e ∈ w.effects →
      (selfSendFuel env fuel p (.message m2) w).world = some w' → e ∈ w'.effects := by
  intro fuel
  induction fuel with
  | zero =>
    intro p m2 ht w w' e he h
    simp only [selfSendFuel, Outcome.world, Option.some.injEq] at h
    subst h; exact he
  | succ n ih =>
    intro p m2 ht w w' e he h
    unfold selfSendFuel onPeerMessageF at h
    dsimp only [ParsedMessage.info, ParsedMessage.asLogMsg] at h
    rw [ht] at h
    dsimp only at h
    split at h
    · simp only [Outcome.world, Option.some.injEq] at h
      subst h; exact he
    · split at h
      · simp only [Outcome.world, Option.some.injEq] at h
        subst h; exact he
      · split at h
        · simp only [Outcome.world, Option.some.injEq] at h
          subst h; exact he
        · exact handleViewChangeF_effects env (selfSendFuel env n) ih
            (fun p nv b w w' e he h => newView_dispatch_effects env n p nv b w w' e he h)
            m2 w w' e he h

/-- When signing works and no view change to `view` or beyond is already in
progress, every non-panicking run of `start_view_change` records the
broadcast of the ViewChange for `view` in the effect trace. -/
theorem startViewChangeF_emits (env : Env) (fuel : Nat) (view : Nat) (w : World)
    (hsig : env.signingWorks = true)
    (hmode : ¬ ∃ v, w.st.mode = PbftMode.viewChanging v ∧ view ≤ v) :
    ∀ w', (startViewChangeF (selfSendFuel env fuel) env view w).world = some w' →
      Effect.broadcastNet w.st.validators (.pbft
        { info := { ptype := MsgType.viewChange.toU8, view := view,
                    seqNum := w.st.seqNum - 1, signerId := w.st.id },
          blockId := 0 }) ∈ w'.effects := by
  intro w' h
  unfold startViewChangeF at h
  rw [if_neg ?_] at h
  · unfold broadcastPbftMessageF broadcastMessageF at h
    dsimp only at h
    rw [show (MsgType.viewChange == MsgType.announceBlock) = false from rfl,
        show (MsgType.viewChange != MsgType.sealRequest) = true from rfl] at h
    simp only [Bool.false_eq_true, if_false, if_true, hsig, not_true] at h
    refine viewChange_dispatch_effects env fuel _ _ ?_ _ w' _ ?_ h
    · rfl
    · simp [World.emit, List.mem_append, netMsgOf]
  · cases hm : w.st.mode with
    | normal => simp
    | viewChanging v =>
      simp only [decide_eq_true_eq]
      intro hle
      exact hmode ⟨v, hm, hle⟩


/-- `envC` with a failing signer. -/
def envNoSign : Env := { envC with signingWorks := false }

/-- `wC` already view-changing towards view 5. -/
def wC3vc : World := { wC with st := { stC with mode := .viewChanging 5 } }

/-- C3 counterexample. (a) A Prepare signed by the current primary but for a
different view is rejected as InvalidMessage with the world unchanged: no
view change is started, no FaultyPrimary is reported, although the message
is a Prepare from the primary. (b) When signing the ViewChange fails, the
propagated error is SigningError, not FaultyPrimary (the mode was already
switched). (c) When a view change to a later view (5) is already in
progress, start_view_change is a no-op: FaultyPrimary is returned with no
ViewChange broadcast and the mode still ViewChanging 5, not
ViewChanging(view+1). -/
theorem c3_counterexample :
    ((mkMsg 2 1 0 1 0).msg.info.signerId = wC.st.getPrimaryId ∧
     handlePrepare envC 1 (mkMsg 2 1 0 1 0) wC = .err .invalidMessage wC) ∧
    (handlePrepare envNoSign 1 (mkMsg 2 0 1 1 0) wC =
      .err .signingError { wC with st := { stC with mode := .viewChanging 1 } }) ∧
    (handlePrepare envC 1 (mkMsg 2 0 1 1 0) wC3vc = .err .faultyPrimary wC3vc ∧
     wC3vc.effects = []) :=
  ⟨⟨rfl, by decide⟩, by decide, by decide, rfl⟩


/-- C3 (amended): on primary equivocation - a mismatched PrePrepare, or a
Prepare signed by the current primary FOR THE CURRENT VIEW - the handler
calls start_view_change(view+1) first and never returns Ok: when
start_view_change succeeds the result is FaultyPrimary with its world, and
when it fails its own error is propagated instead; when signing works and
no view change to view+1 or later is already in progress, the ViewChange
broadcast is recorded in the effect trace of every non-panicking outcome.
A Prepare from the primary for a different view is rejected as
InvalidMessage without any view change. -/
theorem c3_faulty_primary (env : Env) (fuel : Nat) (m : LogMsg) (w : World) :
    (m.msg.info.signerId = w.st.getPrimaryId →
     m.msg.info.view = w.st.view →
     ((w.log.getMessagesOfTypeSeqView .prePrepare m.msg.info.seqNum m.msg.info.view).filter
        (fun ex => ex.msg.blockId ≠ m.msg.blockId)).isEmpty = false →
     (∀ w2, handlePrePrepare env fuel m w ≠ .ok w2) ∧
     (∀ w2, startViewChangeF (selfSendFuel env fuel) env (w.st.view + 1) w = .ok w2 →
        handlePrePrepare env fuel m w = .err .faultyPrimary w2) ∧
     (env.signingWorks = true →
      (¬ ∃ v, w.st.mode = PbftMode.viewChanging v ∧ w.st.view + 1 ≤ v) →
      ∀ w', (handlePrePrepare env fuel m w).world = some w' →
        Effect.broadcastNet w.st.validators (.pbft
          { info := { ptype := MsgType.viewChange.toU8, view := w.st.view + 1,
                      seqNum := w.st.seqNum - 1, signerId := w.st.id },
            blockId := 0 }) ∈ w'.effects)) ∧
    (m.msg.info.view = w.st.view →
     m.msg.info.signerId = w.st.getPrimaryId →
     (∀ w2, handlePrepare env fuel m w ≠ .ok w2) ∧
     (∀ w2, startViewChangeF (selfSendFuel env fuel) env (w.st.view + 1) w = .ok w2 →
        handlePrepare env fuel m w = .err .faultyPrimary w2) ∧
     (env.signingWorks = true →
      (¬ ∃ v, w.st.mode = PbftMode.viewChanging v ∧ w.st.view + 1 ≤ v) →
      ∀ w', (handlePrepare env fuel m w).world = some w' →
        Effect.broadcastNet w.st.validators (.pbft
          { info := { ptype := MsgType.viewChange.toU8, view := w.st.view + 1,
                      seqNum := w.st.seqNum - 1, signerId := w.st.id },
            blockId := 0 }) ∈ w'.effects)) ∧
    (m.msg.info.view ≠ w.st.view →
     handlePrepare env fuel m w = .err .invalidMessage w) := by
  refine ⟨?_, ?_, ?_⟩
  · intro hs hv hmm
    unfold handlePrePrepare handlePrePrepareF
    rw [if_neg (not_not_intro hs), if_neg (not_not_intro hv)]
    dsimp only
    rw [if_pos (show ¬ _ by rw [hmm]; decide)]
    refine ⟨?_, ?_, ?_⟩
    · intro w2
      cases hsv : startViewChangeF (selfSendFuel env fuel) env (w.st.view + 1) w <;>
        simp [Outcome.andThen]
    · intro w2 hsv
      rw [hsv]
      rfl
    · intro hsig hmode w' h
      cases hsv : startViewChangeF (selfSendFuel env fuel) env (w.st.view + 1) w with
      | ok w2 =>
        rw [hsv] at h
        simp only [Outcome.andThen, Outcome.world, Option.some.injEq] at h
        subst h
        exact startViewChangeF_emits env fuel _ w hsig hmode w2 (by rw [hsv]; rfl)
      | err e w2 =>
        rw [hsv] at h
        simp only [Outcome.andThen, Outcome.world, Option.some.injEq] at h
        subst h
        exact startViewChangeF_emits env fuel _ w hsig hmode w2 (by rw [hsv]; rfl)
      | panic =>
        rw [hsv] at h
        simp [Outcome.andThen, Outcome.world] at h
      | fuelOut w2 =>
        rw [hsv] at h
        simp only [Outcome.andThen, Outcome.world, Option.some.injEq] at h
        subst h
        exact startViewChangeF_emits env fuel _ w hsig hmode w2 (by rw [hsv]; rfl)
  · intro hv hs
    unfold handlePrepare handlePrepareF
    rw [if_neg (not_not_intro hv), if_pos (by simp [hs])]
    refine ⟨?_, ?_, ?_⟩
    · intro w2
      cases hsv : startViewChangeF (selfSendFuel env fuel) env (w.st.view + 1) w <;>
        simp [Outcome.andThen]
    · intro w2 hsv
      rw [hsv]
      rfl
    · intro hsig hmode w' h
      cases hsv : startViewChangeF (selfSendFuel env fuel) env (w.st.view + 1) w with
      | ok w2 =>
        rw [hsv] at h
        simp only [Outcome.andThen, Outcome.world, Option.some.injEq] at h
        subst h
        exact startViewChangeF_emits env fuel _ w hsig hmode w2 (by rw [hsv]; rfl)
      | err e w2 =>
        rw [hsv] at h
        simp only [Outcome.andThen, Outcome.world, Option.some.injEq] at h
        subst h
        exact startViewChangeF_emits env fuel _ w hsig hmode w2 (by rw [hsv]; rfl)
      | panic =>
        rw [hsv] at h
        simp [Outcome.andThen, Outcome.world] at h
      | fuelOut w2 =>
        rw [hsv] at h
        simp only [Outcome.andThen, Outcome.world, Option.some.injEq] at h
        subst h
        exact startViewChangeF_emits env fuel _ w hsig hmode w2 (by rw [hsv]; rfl)
  · intro hv
    unfold handlePrepare handlePrepareF
    rw [if_pos hv]

/-- Witness for C3: a Prepare from the primary for the current view never
returns Ok, and one for a different view is InvalidMessage. -/
theorem c3_witness :
    ((mkMsg 2 0 1 1 0).msg.info.view = wC.st.view ∧
     (mkMsg 2 0 1 1 0).msg.info.signerId = wC.st.getPrimaryId ∧
     handlePrepare envC 1 (mkMsg 2 0 1 1 0) wC ≠ .ok wC) ∧
    ((mkMsg 2 1 0 1 0).msg.info.view ≠ wC.st.view ∧
     handlePrepare envC 1 (mkMsg 2 1 0 1 0) wC = .err .invalidMessage wC) :=
  ⟨⟨rfl, rfl, ((c3_faulty_primary envC 1 (mkMsg 2 0 1 1 0) wC).2.1 rfl rfl).1 wC⟩,
   ⟨by decide, (c3_faulty_primary envC 1 (mkMsg 2 1 0 1 0) wC).2.2 (by decide)⟩⟩

/-!  Claim C5: the `on_block_commit` state update and its persistence to
the end of the call, via preservation of (seq_num, mode, chain_head,
last_block_timestamp) through every collaborator the handler runs
afterwards. -/

/-- The four state fields of C5 that survive to the end of
`on_block_commit`: sequence number, mode, chain head, last block
timestamp. -/
def presCore (s s2 : PbftState) : Prop :=
  s2.seqNum = s.seqNum ∧ s2.mode = s.mode ∧ s2.chainHead = s.chainHead ∧
  s2.lastBlockTimestamp = s.lastBlockTimestamp

theorem presCore_refl (s : PbftState) : presCore s s := ⟨rfl, rfl, rfl, rfl⟩

theorem presCore_trans {a b c : PbftState} (h1 : presCore a b) (h2 : presCore b c) :
    presCore a c :=
  ⟨h2.1.trans h1.1, h2.2.1.trans h1.2.1, h2.2.2.1.trans h1.2.2.1, h2.2.2.2.trans h1.2.2.2⟩

theorem switchPhase_ok_eq (st : PbftState) (p : PbftPhase) (st2 : PbftState)
    (h : st.switchPhase p = .ok st2) : st2 = { st with phase := p } := by
  unfold PbftState.switchPhase at h
  dsimp only at h
  split at h
  · cases h; rfl
  · cases h

theorem switchPhase_pres (st : PbftState) (p : PbftPhase) (st2 : PbftState)
    (h : st.switchPhase p = .ok st2) : presCore st st2 := by
  rw [switchPhase_ok_eq st p st2 h]
  exact ⟨rfl, rfl, rfl, rfl⟩

theorem saveSealW_st (env : Env) (sl : PbftSeal) (w : World) :
    ∀ w', (saveSealW env sl w).world = some w' → w'.st = w.st := by
  intro w' h
  unfold saveSealW at h
  split at h <;> (simp only [Outcome.world, Option.some.injEq] at h; subst h; rfl)

theorem catchup_pres (env : Env) (sl : PbftSeal) (b : Bool) (w : World) :
    ∀ w', (catchup env sl b w).world = some w' → presCore w.st w'.st := by
  intro w' h
  unfold catchup at h
  split at h
  · simp only [Outcome.world, Option.some.injEq] at h; subst h; exact presCore_refl _
  · split at h
    · simp [Outcome.world] at h
    · dsimp only at h
      split at h
      · -- latestHeader = some: commitStep = ok
        dsimp only [Outcome.andThen] at h
        split at h
        · simp only [Outcome.world, Option.some.injEq] at h; subst h
          split <;> exact ⟨rfl, rfl, rfl, rfl⟩
        · have hs := saveSealW_st env sl _ w' h
          rw [hs]
          dsimp only
          split <;> exact ⟨rfl, rfl, rfl, rfl⟩
      · -- latestHeader = none
        split at h
        · dsimp only [Outcome.andThen] at h
          simp only [Outcome.world, Option.some.injEq] at h; subst h
          split <;> exact ⟨rfl, rfl, rfl, rfl⟩
        · dsimp only [Outcome.andThen] at h
          split at h
          · simp only [Outcome.world, Option.some.injEq] at h; subst h
            split <;> exact ⟨rfl, rfl, rfl, rfl⟩
          · have hs := saveSealW_st env sl _ w' h
            rw [hs]
            dsimp only
            split <;> exact ⟨rfl, rfl, rfl, rfl⟩


/-- `handle_commit` preserves the C5 core fields: it changes only the log,
the phase, the timers and the effect trace (its AnnounceBlock broadcast
goes to all peers, hence is never self-dispatched). -/
theorem handleCommitF_pres (recur : Recur) (env : Env) (m : LogMsg) (w : World) :
    ∀ w', (handleCommitF recur env m w).world = some w' → presCore w.st w'.st := by
  intro w' h
  unfold handleCommitF at h
  split at h
  · simp only [Outcome.world, Option.some.injEq] at h; subst h; exact presCore_refl _
  · dsimp only at h
    split at h
    · split at h
      · split at h
        · simp only [Outcome.world, Option.some.injEq] at h; subst h; exact presCore_refl _
        · split at h
          · simp only [Outcome.world, Option.some.injEq] at h; subst h; exact presCore_refl _
          · rename_i st2 hsw
            unfold broadcastPbftMessageF broadcastMessageF at h
            dsimp only at h
            rw [show (MsgType.announceBlock == MsgType.announceBlock) = true from rfl] at h
            simp only [eq_self_iff_true, if_true] at h
            split at h <;>
              (simp only [Outcome.world, Option.some.injEq] at h; subst h;
               have h1 := switchPhase_pres _ _ _ hsw;
               exact ⟨h1.1, h1.2.1, h1.2.2.1, h1.2.2.2⟩)
      · simp only [Outcome.world, Option.some.injEq] at h; subst h; exact presCore_refl _
    · simp only [Outcome.world, Option.some.injEq] at h; subst h; exact presCore_refl _

/-- Self-dispatching a Commit preserves the C5 core fields, at every fuel. -/
theorem commit_dispatch_pres (env : Env) :
    ∀ (fuel p : Nat) (m2 : LogMsg) (w w' : World),
      MsgType.ofU8 m2.msg.info.ptype = .commit →
      (selfSendFuel env fuel p (.message m2) w).world = some w' →
      presCore w.st w'.st := by
  intro fuel p m2 w w' ht h
  cases fuel with
  | zero =>
    simp only [selfSendFuel, Outcome.world, Option.some.injEq] at h
    subst h; exact presCore_refl _
  | succ n =>
    unfold selfSendFuel onPeerMessageF at h
    dsimp only [ParsedMessage.info, ParsedMessage.asLogMsg] at h
    rw [ht] at h
    dsimp only at h
    split at h
    · simp only [Outcome.world, Option.some.injEq] at h; subst h; exact presCore_refl _
    · split at h
      · simp only [Outcome.world, Option.some.injEq] at h; subst h; exact presCore_refl _
      · split at h
        · simp only [Outcome.world, Option.some.injEq] at h; subst h; exact presCore_refl _
        · exact handleCommitF_pres (selfSendFuel env n) env m2 w w' h

/-- `handle_prepare` from a non-primary signer preserves the C5 core
fields, given that self-dispatching the Commit broadcast does. -/
theorem handlePrepareF_pres (recur : Recur) (env : Env)
    (hrecC : ∀ (p : Nat) (m2 : LogMsg) (w w' : World),
      MsgType.ofU8 m2.msg.info.ptype = .commit →
      (recur p (.message m2) w).world = some w' → presCore w.st w'.st)
    (m : LogMsg) (w : World)
    (hs : m.msg.info.signerId ≠ w.st.getPrimaryId) :
    ∀ w', (handlePrepareF recur env m w).world = some w' → presCore w.st w'.st := by
  intro w' h
  unfold handlePrepareF at h
  split at h
  · simp only [Outcome.world, Option.some.injEq] at h; subst h; exact presCore_refl _
  · split at h
    · rename_i hbeq
      exact absurd (eq_of_beq hbeq) hs
    · dsimp only at h
      split at h
      · split at h
        · split at h
          · simp only [Outcome.world, Option.some.injEq] at h; subst h; exact presCore_refl _
          · rename_i st2 hsw
            unfold broadcastPbftMessageF broadcastMessageF at h
            dsimp only at h
            rw [show (MsgType.commit == MsgType.announceBlock) = false from rfl,
                show (MsgType.commit != MsgType.sealRequest) = true from rfl] at h
            simp only [Bool.false_eq_true, if_false, eq_self_iff_true, if_true] at h
            split at h
            · simp only [Outcome.world, Option.some.injEq] at h; subst h
              have h1 := switchPhase_pres _ _ _ hsw
              exact ⟨h1.1, h1.2.1, h1.2.2.1, h1.2.2.2⟩
            · have h1 := switchPhase_pres _ _ _ hsw
              have h2 := hrecC _ _ _ w' (by rfl) h
              exact ⟨h2.1.trans h1.1, h2.2.1.trans h1.2.1, h2.2.2.1.trans h1.2.2.1,
                h2.2.2.2.trans h1.2.2.2⟩
        · simp only [Outcome.world, Option.some.injEq] at h; subst h; exact presCore_refl _
      · simp only [Outcome.world, Option.some.injEq] at h; subst h; exact presCore_refl _

/-- Self-dispatching a Prepare whose signer is not the current primary
preserves the C5 core fields, at every fuel. -/
theorem prepare_dispatch_pres (env : Env) :
    ∀ (fuel p : Nat) (m2 : LogMsg) (w w' : World),
      MsgType.ofU8 m2.msg.info.ptype = .prepareMsg →
      m2.msg.info.signerId ≠ w.st.getPrimaryId →
      (selfSendFuel env fuel p (.message m2) w).world = some w' →
      presCore w.st w'.st := by
  intro fuel p m2 w w' ht hs h
  cases fuel with
  | zero =>
    simp only [selfSendFuel, Outcome.world, Option.some.injEq] at h
    subst h; exact presCore_refl _
  | succ n =>
    unfold selfSendFuel onPeerMessageF at h
    dsimp only [ParsedMessage.info, ParsedMessage.asLogMsg] at h
    rw [ht] at h
    dsimp only at h
    split at h
    · simp only [Outcome.world, Option.some.injEq] at h; subst h; exact presCore_refl _
    · split at h
      · simp only [Outcome.world, Option.some.injEq] at h; subst h; exact presCore_refl _
      · split at h
        · simp only [Outcome.world, Option.some.injEq] at h; subst h; exact presCore_refl _
        · exact handlePrepareF_pres (selfSendFuel env n) env
            (fun p m2 w w' ht h => commit_dispatch_pres env n p m2 w w' ht h)
            m2 w hs w' h


/-- `try_preparing` preserves the C5 core fields: it changes only the phase
and the timers, and its Prepare broadcast is sent only when the node is
not primary, so the self-dispatched Prepare cannot hit the faulty-primary
branch. -/
theorem tryPreparingF_pres (env : Env) (fuel : Nat) (blockId : Nat) (w : World) :
    ∀ w', (tryPreparingF (selfSendFuel env fuel) env blockId w).world = some w' →
      presCore w.st w'.st := by
  intro w' h
  unfold tryPreparingF at h
  split at h
  · simp only [Outcome.world, Option.some.injEq] at h; subst h; exact presCore_refl _
  · split at h
    · split at h
      · simp only [Outcome.world, Option.some.injEq] at h; subst h; exact presCore_refl _
      · rename_i st2 hsw
        dsimp only at h
        split at h
        · rename_i hnp
          unfold broadcastPbftMessageF broadcastMessageF at h
          dsimp only at h
          rw [show (MsgType.prepareMsg == MsgType.announceBlock) = false from rfl,
              show (MsgType.prepareMsg != MsgType.sealRequest) = true from rfl] at h
          simp only [Bool.false_eq_true, if_false, eq_self_iff_true, if_true] at h
          split at h
          · simp only [Outcome.world, Option.some.injEq] at h; subst h
            have h1 := switchPhase_pres _ _ _ hsw
            exact ⟨h1.1, h1.2.1, h1.2.2.1, h1.2.2.2⟩
          · have h1 := switchPhase_pres _ _ _ hsw
            have h2 := prepare_dispatch_pres env fuel _ _ _ w' (by rfl) ?_ h
            · exact ⟨h2.1.trans h1.1, h2.2.1.trans h1.2.1, h2.2.2.1.trans h1.2.2.1,
                h2.2.2.2.trans h1.2.2.2⟩
            · intro heq
              exact hnp (beq_iff_eq.mpr heq)
        · simp only [Outcome.world, Option.some.injEq] at h; subst h
          have h1 := switchPhase_pres _ _ _ hsw
          exact ⟨h1.1, h1.2.1, h1.2.2.1, h1.2.2.2⟩
    · simp only [Outcome.world, Option.some.injEq] at h; subst h; exact presCore_refl _


/-- `try_handling_block` on a grandchild (one past the current sequence
number) preserves the C5 core fields: only the catch-up branch is
reachable. -/
theorem tryHandlingBlockF_pres (env : Env) (fuel : Nat) (block : ClayerBlock) (w : World)
    (hnum : block.blockNum = w.st.seqNum + 1) :
    ∀ w', (tryHandlingBlockF (selfSendFuel env fuel) env block w).world = some w' →
      presCore w.st w'.st := by
  intro w' h
  unfold tryHandlingBlockF at h
  split at h
  · simp only [Outcome.world, Option.some.injEq] at h; subst h; exact presCore_refl _
  · split at h
    · simp only [Outcome.world, Option.some.injEq] at h; subst h; exact presCore_refl _
    · dsimp only at h
      split at h
      · exact catchup_pres env _ _ w w' h
      · split at h
        · rename_i hbeq
          rw [hnum] at hbeq
          exact absurd (eq_of_beq hbeq) (Nat.succ_ne_self _)
        · simp only [Outcome.world, Option.some.injEq] at h; subst h; exact presCore_refl _

/-- The grandchildren loop of `on_block_commit` preserves the C5 core
fields whichever way it ends. -/
theorem tryGrandchildrenLoop_pres (env : Env) (fuel : Nat) :
    ∀ (blocks : List ClayerBlock) (w : World),
      (∀ b ∈ blocks, b.blockNum = w.st.seqNum + 1) →
      ∀ (o : Outcome) (flag : Bool),
        tryGrandchildrenLoop (selfSendFuel env fuel) env blocks w = (o, flag) →
        ∀ w', o.world = some w' → presCore w.st w'.st := by
  intro blocks
  induction blocks with
  | nil =>
    intro w _ o flag hl w' h
    cases hl
    simp only [Outcome.world, Option.some.injEq] at h
    subst h; exact presCore_refl _
  | cons b rest ih =>
    intro w hnum o flag hl w' h
    unfold tryGrandchildrenLoop at hl
    generalize hb : tryHandlingBlockF (selfSendFuel env fuel) env b w = ob at hl
    cases ob with
    | ok w2 =>
      cases hl
      simp only [Outcome.world, Option.some.injEq] at h
      subst h
      exact tryHandlingBlockF_pres env fuel b w (hnum b (List.mem_cons_self b rest)) w2
        (by rw [hb]; rfl)
    | err e w2 =>
      have h2 := tryHandlingBlockF_pres env fuel b w (hnum b (List.mem_cons_self b rest)) w2
        (by rw [hb]; rfl)
      have h3 := ih w2
        (fun b2 hb2 => by rw [hnum b2 (List.mem_cons_of_mem b hb2), h2.1])
        o flag hl w' h
      exact presCore_trans h2 h3
    | panic =>
      cases hl
      simp only [Outcome.world] at h
      cases h
    | fuelOut w2 =>
      cases hl
      simp only [Outcome.world, Option.some.injEq] at h
      subst h
      exact tryHandlingBlockF_pres env fuel b w (hnum b (List.mem_cons_self b rest)) w2
        (by rw [hb]; rfl)

/-- The `try_preparing` loop preserves the C5 core fields. -/
theorem tryPreparingLoop_pres (env : Env) (fuel : Nat) :
    ∀ (ids : List Nat) (w : World) (w' : World),
      (tryPreparingLoop (selfSendFuel env fuel) env ids w).world = some w' →
      presCore w.st w'.st := by
  intro ids
  induction ids with
  | nil =>
    intro w w' h
    simp only [tryPreparingLoop, Outcome.world, Option.some.injEq] at h
    subst h; exact presCore_refl _
  | cons id rest ih =>
    intro w w' h
    unfold tryPreparingLoop at h
    generalize hb : tryPreparingF (selfSendFuel env fuel) env id w = ob at h
    cases ob with
    | ok w2 =>
      simp only [Outcome.andThen] at h
      exact presCore_trans (tryPreparingF_pres env fuel id w w2 (by rw [hb]; rfl)) (ih w2 w' h)
    | err e w2 =>
      simp only [Outcome.andThen, Outcome.world, Option.some.injEq] at h
      subst h
      exact tryPreparingF_pres env fuel id w w2 (by rw [hb]; rfl)
    | panic =>
      simp only [Outcome.andThen, Outcome.world] at h
      cases h
    | fuelOut w2 =>
      simp only [Outcome.andThen, Outcome.world, Option.some.injEq] at h
      subst h
      exact tryPreparingF_pres env fuel id w w2 (by rw [hb]; rfl)


/-- `send_seal_response` never changes the node state. -/
theorem sendSealResponseW_st (env : Env) (r : Nat) (w : World) :
    ∀ w', (sendSealResponseW env r w).world = some w' → w'.st = w.st := by
  intro w' h
  unfold sendSealResponseW at h
  split at h
  · simp only [Outcome.world, Option.some.injEq] at h; subst h; rfl
  · split at h <;> (simp only [Outcome.world, Option.some.injEq] at h; subst h; rfl)

/-- The seal-response loop never changes the node state. -/
theorem sendSealsToRequesters_st (env : Env) :
    ∀ (reqs : List Nat) (w : World), (sendSealsToRequesters env reqs w).st = w.st := by
  intro reqs
  induction reqs with
  | nil => intro w; rfl
  | cons r rest ih =>
    intro w
    show (sendSealsToRequesters env rest _).st = w.st
    cases hb : sendSealResponseW env r w with
    | ok w2 =>
      dsimp only
      rw [hb]
      dsimp only
      rw [ih w2]
      exact sendSealResponseW_st env r w w2 (by rw [hb]; rfl)
    | err e w2 =>
      dsimp only
      rw [hb]
      dsimp only
      rw [ih w2]
      exact sendSealResponseW_st env r w w2 (by rw [hb]; rfl)
    | panic =>
      dsimp only
      rw [hb]
      exact ih w
    | fuelOut w2 =>
      dsimp only
      rw [hb]
      exact ih w

/-- Failing the other blocks at the committed height only emits effects. -/
theorem failOtherBlocks_st (w : World) (blockId : Nat) :
    (failOtherBlocks w blockId).st = w.st := by
  unfold failOtherBlocks
  dsimp only
  generalize (((w.log.getBlocksWithNum w.st.seqNum).filter _).map _) = ids
  induction ids generalizing w with
  | nil => rfl
  | cons i rest ih => exact (ih (w.emit (.failBlock i))).trans rfl


/-- Self-dispatching a NewValidator notice preserves the C5 core fields,
at every fuel: it can only toggle `becomingValidator`. -/
theorem newValidator_dispatch_pres (env : Env) :
    ∀ (fuel p : Nat) (nv : PbftNewValidator) (b : Bool) (w w' : World),
      (selfSendFuel env fuel p (.newValidator nv b) w).world = some w' →
      presCore w.st w'.st := by
  intro fuel p nv b w w' h
  cases fuel with
  | zero =>
    simp only [selfSendFuel, Outcome.world, Option.some.injEq] at h
    subst h; exact presCore_refl _
  | succ n =>
    unfold selfSendFuel onPeerMessageF at h
    dsimp only [ParsedMessage.info, ParsedMessage.asLogMsg, ParsedMessage.asNewValidator,
      ParsedMessage.asSeal, ParsedMessage.asNewView, ParsedMessage.asBlockNew] at h
    split at h
    · simp only [Outcome.world, Option.some.injEq] at h; subst h; exact presCore_refl _
    · split at h
      · split at h <;>
          first
            | (simp only [Outcome.world] at h; exact Option.noConfusion h)
            | (unfold handleNewValidatorW at h
               split at h <;>
                 (simp only [Outcome.world, Option.some.injEq] at h; subst h;
                  exact presCore_refl _))
            | (split at h <;>
                 first
                   | (simp only [Outcome.world] at h; exact Option.noConfusion h)
                   | (simp only [Outcome.world, Option.some.injEq] at h; subst h;
                      exact presCore_refl _))
            | (simp only [Outcome.world, Option.some.injEq] at h; subst h; exact presCore_refl _)
      · split at h
        · simp only [Outcome.world, Option.some.injEq] at h; subst h; exact presCore_refl _
        · split at h <;>
            first
              | (simp only [Outcome.world] at h; exact Option.noConfusion h)
              | (simp only [Outcome.world, Option.some.injEq] at h; subst h; exact presCore_refl _)

/-- Broadcasting a NewValidator notice preserves the C5 core fields. -/
theorem broadcastNV_pres (env : Env) (fuel : Nat) (nv : PbftNewValidator)
    (b toAll toSelf : Bool) (w : World) :
    ∀ w', (broadcastMessageF (selfSendFuel env fuel) env (.newValidator nv b)
        toAll toSelf w).world = some w' → presCore w.st w'.st := by
  intro w' h
  unfold broadcastMessageF at h
  split at h
  · simp only [Outcome.world, Option.some.injEq] at h; subst h; exact presCore_refl _
  · split at h
    · simp only [Outcome.world, Option.some.injEq] at h; subst h; exact presCore_refl _
    · dsimp only at h
      split at h
      · have h4 := newValidator_dispatch_pres env fuel _ _ _ _ w' h
        exact ⟨h4.1, h4.2.1, h4.2.2.1, h4.2.2.2⟩
      · simp only [Outcome.world, Option.some.injEq] at h; subst h; exact presCore_refl _

/-- `update_membership` preserves the C5 core fields: it can change the
validator list, f and the becoming-validator flag, and its NewValidator
broadcast only self-dispatches a NewValidator notice. -/
theorem updateMembershipF_pres (env : Env) (fuel : Nat) (bn : Nat) (w : World) :
    ∀ w', (updateMembershipF (selfSendFuel env fuel) env bn w).world = some w' →
      presCore w.st w'.st := by
  intro w' h
  unfold updateMembershipF at h
  dsimp only at h
  split at h
  · cases h
  · rename_i w2 hup
    have hw2 : presCore w.st w2.st := by
      split at hup
      · split at hup
        · cases hup
        · cases hup; exact presCore_refl _
      · cases hup; exact presCore_refl _
    refine presCore_trans hw2 ?_
    split at h
    · -- broadcast branch
      split at h
      · rename_i w3 hob
        dsimp only [Outcome.andThen] at h
        have h4 := broadcastNV_pres env fuel _ _ _ _ w2 w3 (by rw [hob]; rfl)
        split at h <;>
          (simp only [Outcome.world, Option.some.injEq] at h; subst h;
           exact ⟨h4.1, h4.2.1, h4.2.2.1, h4.2.2.2⟩)
      · rename_i e w3 hob
        dsimp only [Outcome.andThen] at h
        have h4 := broadcastNV_pres env fuel _ _ _ _ w2 w3 (by rw [hob]; rfl)
        split at h <;>
          (simp only [Outcome.world, Option.some.injEq] at h; subst h;
           exact ⟨h4.1, h4.2.1, h4.2.2.1, h4.2.2.2⟩)
      · dsimp only [Outcome.andThen] at h
        simp only [Outcome.world] at h
        exact Option.noConfusion h
      · rename_i w3 hob
        dsimp only [Outcome.andThen] at h
        simp only [Outcome.world, Option.some.injEq] at h; subst h
        have h4 := broadcastNV_pres env fuel _ _ _ _ w2 w3 (by rw [hob]; rfl)
        exact ⟨h4.1, h4.2.1, h4.2.2.1, h4.2.2.2⟩
    · -- no broadcast
      dsimp only [Outcome.andThen] at h
      split at h <;>
        (simp only [Outcome.world, Option.some.injEq] at h; subst h; exact presCore_refl _)

/-- Members of `get_blocks_with_num n` are numbered n. -/
theorem mem_getBlocksWithNum (log : PbftLog) (n : Nat) (b : ClayerBlock)
    (h : b ∈ log.getBlocksWithNum n) : b.blockNum = n := by
  unfold PbftLog.getBlocksWithNum at h
  have := List.of_mem_filter h
  exact eq_of_beq this


/-- The grandchildren stage of `on_block_commit` (garbage collection, the
catch-up loop, the seal request of a catching-up node, the `try_preparing`
loop and the primary's block initialization) preserves the C5 core
fields. -/
theorem obc_grand_pres (env : Env) (fuel : Nat) (isCatchingUp : Bool) (blockId : Nat)
    (w5 : World) :
    ∀ w',
      (let w := { w5 with log := w5.log.garbageCollect w5.st.seqNum }
       let grandchildren := w.log.getBlocksWithNum (w.st.seqNum + 1)
       match tryGrandchildrenLoop (selfSendFuel env fuel) env grandchildren w with
       | (o, true) => o
       | (.ok w, false) =>
         if isCatchingUp then
           broadcastPbftMessageF (selfSendFuel env fuel) env w.st.view w.st.seqNum
             .sealRequest 0 w
         else
           let w := { w with st := { w.st with idleTimeout := w.st.idleTimeout.start } }
           let blockIds := (w.log.getBlocksWithNum w.st.seqNum).map
             (fun b : ClayerBlock => b.blockId)
           (tryPreparingLoop (selfSendFuel env fuel) env blockIds w).andThen fun w =>
             if w.st.isPrimary then
               let w := w.emit (.initializeBlock (some blockId))
               if env.initializeBlockOk then .ok w else .err .serviceError w
             else .ok w
       | (o, false) => o).world = some w' →
      presCore w5.st w'.st := by
  intro w' h
  dsimp only at h
  split at h
  · rename_i o hloop
    have h6 := tryGrandchildrenLoop_pres env fuel
      ((w5.log.garbageCollect w5.st.seqNum).getBlocksWithNum (w5.st.seqNum + 1))
      { w5 with log := w5.log.garbageCollect w5.st.seqNum }
      (fun b hb => mem_getBlocksWithNum _ _ b hb) o true hloop w' h
    exact ⟨h6.1, h6.2.1, h6.2.2.1, h6.2.2.2⟩
  · rename_i w7 hloop
    have h7 := tryGrandchildrenLoop_pres env fuel
      ((w5.log.garbageCollect w5.st.seqNum).getBlocksWithNum (w5.st.seqNum + 1))
      { w5 with log := w5.log.garbageCollect w5.st.seqNum }
      (fun b hb => mem_getBlocksWithNum _ _ b hb) (.ok w7) false hloop w7 rfl
    split at h
    · unfold broadcastPbftMessageF broadcastMessageF at h
      dsimp only at h
      rw [show (MsgType.sealRequest == MsgType.announceBlock) = false from rfl,
          show (MsgType.sealRequest != MsgType.sealRequest) = false from rfl] at h
      simp only [Bool.false_eq_true, if_false] at h
      split at h <;>
        (simp only [Outcome.world, Option.some.injEq] at h; subst h;
         exact ⟨h7.1, h7.2.1, h7.2.2.1, h7.2.2.2⟩)
    · unfold Outcome.andThen at h
      split at h
      · rename_i w9 hloop2
        have h9 := tryPreparingLoop_pres env fuel _ _ w9 (by rw [hloop2]; rfl)
        dsimp only at h
        split at h <;>
          first
            | (split at h <;>
                (simp only [Outcome.world, Option.some.injEq] at h; subst h;
                 exact ⟨(h9.1.trans h7.1 : _), h9.2.1.trans h7.2.1, h9.2.2.1.trans h7.2.2.1,
                   h9.2.2.2.trans h7.2.2.2⟩))
            | (simp only [Outcome.world, Option.some.injEq] at h; subst h;
               exact ⟨(h9.1.trans h7.1 : _), h9.2.1.trans h7.2.1, h9.2.2.1.trans h7.2.2.1,
                 h9.2.2.2.trans h7.2.2.2⟩)
      · rename_i o2 hloop2
        have h9 := tryPreparingLoop_pres env fuel _ _ w' h
        exact ⟨(h9.1.trans h7.1 : _), h9.2.1.trans h7.2.1, h9.2.2.1.trans h7.2.2.1,
          h9.2.2.2.trans h7.2.2.2⟩
  · rename_i o hne hloop
    have h6 := tryGrandchildrenLoop_pres env fuel
      ((w5.log.garbageCollect w5.st.seqNum).getBlocksWithNum (w5.st.seqNum + 1))
      { w5 with log := w5.log.garbageCollect w5.st.seqNum }
      (fun b hb => mem_getBlocksWithNum _ _ b hb) o false hloop w' h
    exact ⟨h6.1, h6.2.1, h6.2.2.1, h6.2.2.2⟩


/-- The seal-building stage of `on_block_commit` never changes the node
state. -/
theorem sealStep_st (env : Env) (committing : Bool) (wp : World) :
    ∀ w2,
      (if committing then
        match buildSeal env wp with
        | .error _ => Outcome.err .internalError wp
        | .ok sl => saveSealW env sl wp
      else .ok wp).world = some w2 → w2.st = wp.st := by
  intro w2 h
  split at h
  · split at h
    · simp only [Outcome.world, Option.some.injEq] at h; subst h; rfl
    · exact saveSealW_st env _ wp w2 h
  · simp only [Outcome.world, Option.some.injEq] at h; subst h; rfl

/-- Everything `on_block_commit` runs after its state update preserves the
C5 core fields. -/
theorem onBlockCommit_pres (env : Env) (fuel blockId ts : Nat) (committing : Bool)
    (w : World) :
    ∀ w', (onBlockCommit env fuel blockId ts committing w).world = some w' →
      presCore (commitStateUpdate (failOtherBlocks w blockId) blockId ts).st w'.st := by
  intro w' h
  unfold onBlockCommit onBlockCommitF at h
  dsimp only at h
  unfold Outcome.andThen at h
  split at h
  · rename_i w2 hss
    have hw2 : w2.st = (commitStateUpdate (failOtherBlocks w blockId) blockId ts).st :=
      sealStep_st env committing _ w2 (by rw [hss]; rfl)
    dsimp only at h
    split at h
    · rename_i w4 hum
      have h4 := updateMembershipF_pres env fuel _ _ w4 (by rw [hum]; rfl)
      rw [sendSealsToRequesters_st env _ w2] at h4
      rw [hw2] at h4
      have hgr := obc_grand_pres env fuel _ blockId
        (if w4.st.atForcedViewChange then
          { w4 with st := { w4.st with view := w4.st.view + 1 } } else w4) w' h
      have hfv : presCore w4.st
          (if w4.st.atForcedViewChange then
            { w4 with st := { w4.st with view := w4.st.view + 1 } } else w4).st := by
        split
        · exact ⟨rfl, rfl, rfl, rfl⟩
        · exact presCore_refl _
      exact presCore_trans h4 (presCore_trans hfv hgr)
    · rename_i o hum
      have h4 := updateMembershipF_pres env fuel _ _ w' h
      rw [sendSealsToRequesters_st env _ w2] at h4
      rw [hw2] at h4
      exact h4
  · rename_i o hss
    have hst : w'.st = (commitStateUpdate (failOtherBlocks w blockId) blockId ts).st :=
      sealStep_st env committing _ w' h
    rw [hst]
    exact presCore_refl _


/-- C5: `on_block_commit` increments seq_num by exactly one, sets mode to
Normal, phase to PrePreparing, chain_head to the committed block id and
last_block_timestamp to the delivered timestamp (the state update of lines
1182-1187); the sequence number, mode, chain head and timestamp still hold
in the state of every non-panicking outcome, and across two consecutive
BlockCommit deliveries the sequence number grows by exactly 2 (the phase
set here may advance further within the same call via try_preparing or
catch-up). -/
theorem c5_on_block_commit (env : Env) (fuel blockId ts : Nat) (committing : Bool)
    (w : World) :
    ((commitStateUpdate w blockId ts).st.seqNum = w.st.seqNum + 1 ∧
     (commitStateUpdate w blockId ts).st.mode = PbftMode.normal ∧
     (commitStateUpdate w blockId ts).st.phase = PbftPhase.prePreparing ∧
     (commitStateUpdate w blockId ts).st.chainHead = blockId ∧
     (commitStateUpdate w blockId ts).st.lastBlockTimestamp = ts) ∧
    (∀ w', (onBlockCommit env fuel blockId ts committing w).world = some w' →
      w'.st.seqNum = w.st.seqNum + 1 ∧ w'.st.mode = PbftMode.normal ∧
      w'.st.chainHead = blockId ∧ w'.st.lastBlockTimestamp = ts) ∧
    (∀ (blockId2 ts2 : Nat) (committing2 : Bool) (w' w'' : World),
      (onBlockCommit env fuel blockId ts committing w).world = some w' →
      (onBlockCommit env fuel blockId2 ts2 committing2 w').world = some w'' →
      w''.st.seqNum = w.st.seqNum + 2) := by
  have key : ∀ w', (onBlockCommit env fuel blockId ts committing w).world = some w' →
      w'.st.seqNum = w.st.seqNum + 1 ∧ w'.st.mode = PbftMode.normal ∧
      w'.st.chainHead = blockId ∧ w'.st.lastBlockTimestamp = ts := by
    intro w' h
    have hp := onBlockCommit_pres env fuel blockId ts committing w w' h
    have hfb := failOtherBlocks_st w blockId
    refine ⟨?_, ?_, ?_, ?_⟩
    · rw [hp.1]
      show (failOtherBlocks w blockId).st.seqNum + 1 = w.st.seqNum + 1
      rw [hfb]
    · exact hp.2.1
    · exact hp.2.2.1
    · exact hp.2.2.2
  refine ⟨⟨rfl, rfl, rfl, rfl, rfl⟩, key, ?_⟩
  intro blockId2 ts2 committing2 w' w'' h1 h2
  have k1 := (key w' h1).1
  have hp2 := onBlockCommit_pres env fuel blockId2 ts2 committing2 w' w'' h2
  have hfb2 := failOtherBlocks_st w' blockId2
  have k2 : w''.st.seqNum = w'.st.seqNum + 1 := by
    rw [hp2.1]
    show (failOtherBlocks w' blockId2).st.seqNum + 1 = w'.st.seqNum + 1
    rw [hfb2]
  rw [k2, k1]

/-- Witness for C5: a BlockCommit for block 5 at timestamp 7 against the
fresh four-member world. -/
theorem c5_witness :
    (commitStateUpdate wC 5 7).st.phase = PbftPhase.prePreparing ∧
    (commitStateUpdate wC 5 7).st.mode = PbftMode.normal ∧
    ∃ w', (onBlockCommit envC 1 5 7 false wC).world = some w' ∧
      w'.st.seqNum = wC.st.seqNum + 1 ∧ w'.st.mode = PbftMode.normal ∧
      w'.st.chainHead = 5 ∧ w'.st.lastBlockTimestamp = 7 := by
  refine ⟨(c5_on_block_commit envC 1 5 7 false wC).1.2.2.1, 
    (c5_on_block_commit envC 1 5 7 false wC).1.2.1, ?_⟩
  cases ho : (onBlockCommit envC 1 5 7 false wC).world with
  | none => exact absurd ho (by decide)
  | some w' => exact ⟨w', rfl, (c5_on_block_commit envC 1 5 7 false wC).2.1 w' ho⟩

end ClayerPbft
